import Mathlib

/-!
# Verification of the prompt-optimization system

A shallow embedding of the repository's core logic:

* `src/main.py` — the optimization control loop, `calculate_overlap`,
  `process_input_data`;
* `src/prompt_optimizer.py` — `PromptOptimizer` (`analyze_differences`,
  `extract_diseases_from_response`, `generate_prompt`, `predict_diseases`,
  `evaluate_optimization_progress`);
* `src/api_clients.py` — `DeepSeekAPI.generate_prompt` (candidate skeleton
  validation) and `QwenAPI.predict` (response cleaning / standardization).

Python strings are modelled as `List Char`; Python floats that carry scores
are modelled as `ℚ` (the code only adds, divides and compares them);
`json.loads` is modelled by an executable fuel-based parser `jsonParse`
returning `Option Json` (`none` models a raised `JSONDecodeError`).
The three external text-generation services are opaque oracles, modelled
as arbitrary total functions bundled in a `Services` structure.
-/

set_option maxRecDepth 100000

/-- A Python string: a list of unicode code points. -/
abbrev PyStr := List Char

/-- Whitespace characters: JSON whitespace plus the extra ASCII whitespace
recognised by Python `str.strip()` and the regex class `\s`. -/
def isWsChar (c : Char) : Bool :=
  c = ' ' || c = '\t' || c = '\n' || c = '\x0d' || c = '\x0b' || c = '\x0c'

/-- Drop the elements satisfying `p` from both ends of a list. -/
def trimWith (p : α → Bool) (l : List α) : List α :=
  ((l.dropWhile p).reverse.dropWhile p).reverse

/-- Python `str.strip()` with no arguments: drop whitespace at both ends. -/
def pyTrim (s : PyStr) : PyStr := trimWith isWsChar s

/-- Python `str.strip(chars)`: drop the given characters at both ends. -/
def stripBoth (bad : List Char) (s : PyStr) : PyStr :=
  trimWith (fun c => bad.contains c) s

/-- Python `str.lower()` (ASCII case folding; the CJK labels are unaffected). -/
def lowerStr (s : PyStr) : PyStr := s.map Char.toLower

theorem dropWhile_self_idem (p : α → Bool) (l : List α) :
    (l.dropWhile p).dropWhile p = l.dropWhile p := by
  induction l with
  | nil => rfl
  | cons a l ih =>
    by_cases h : p a
    · simp [List.dropWhile_cons, h, ih]
    · simp [List.dropWhile_cons, h]

theorem dropWhile_cons_false {p : α → Bool} {l : List α} {a : α} {t : List α}
    (h : l.dropWhile p = a :: t) : p a = false := by
  induction l with
  | nil => simp at h
  | cons b l ih =>
    rw [List.dropWhile_cons] at h
    split at h
    · exact ih h
    · cases h
      simpa using ‹¬ _ = true›

theorem dropWhile_append_last {p : α → Bool} {h : α} (hp : p h = false)
    (xs : List α) : ∃ ys, (xs ++ [h]).dropWhile p = ys ++ [h] := by
  induction xs with
  | nil => exact ⟨[], by simp [List.dropWhile_cons, hp]⟩
  | cons a xs ih =>
    by_cases hpa : p a
    · simpa [List.dropWhile_cons, hpa] using ih
    · exact ⟨a :: xs, by simp [List.dropWhile_cons, hpa]⟩

/-- Trimming both ends is idempotent. -/
theorem trimWith_idem (p : α → Bool) (l : List α) :
    trimWith p (trimWith p l) = trimWith p l := by
  unfold trimWith
  cases hu : l.dropWhile p with
  | nil => simp
  | cons h u₁ =>
    have hph : p h = false := dropWhile_cons_false hu
    obtain ⟨ys, hys⟩ := dropWhile_append_last hph u₁.reverse
    rw [List.reverse_cons, hys]
    have h1 : (ys ++ [h]).reverse = h :: ys.reverse := by simp
    rw [h1]
    have h2 : (h :: ys.reverse).dropWhile p = h :: ys.reverse := by
      rw [List.dropWhile_cons, if_neg (by simp [hph])]
    rw [h2]
    have h3 : (h :: ys.reverse).reverse = ys ++ [h] := by simp
    rw [h3, ← hys, dropWhile_self_idem, hys, h1]

/-- `pyTrim` is idempotent: stripping whitespace twice equals stripping once. -/
theorem pyTrim_idem (s : PyStr) : pyTrim (pyTrim s) = pyTrim s :=
  trimWith_idem isWsChar s

/-- `stripBoth` is idempotent. -/
theorem stripBoth_idem (bad : List Char) (s : PyStr) :
    stripBoth bad (stripBoth bad s) = stripBoth bad s :=
  trimWith_idem _ s

/-! ## The JSON data model and `json.loads` -/

/-- Parsed JSON values, as produced by Python's `json.loads`.  Numbers are
restricted to integers: the system's payloads carry disease-name strings,
and no claim depends on float literals. -/
inductive Json where
  | null : Json
  | bool : Bool → Json
  | num : Int → Json
  | str : PyStr → Json
  | arr : List Json → Json
  | obj : List (PyStr × Json) → Json
deriving Inhabited

/-- Lookup in a parsed JSON object.  `json.loads` builds a `dict`, where a
later duplicate key overrides an earlier one, hence the reversed search. -/
def objGet (fields : List (PyStr × Json)) (key : PyStr) : Option Json :=
  (fields.reverse.find? (fun kv => kv.1 = key)).map (·.2)

/-- Python `key in dict` for a parsed JSON object. -/
def objHasKey (fields : List (PyStr × Json)) (key : PyStr) : Bool :=
  fields.any (fun kv => kv.1 = key)

/-- Decode `\uXXXX`-style hex digits. -/
def hexVal (c : Char) : Option Nat :=
  if '0' ≤ c ∧ c ≤ '9' then some (c.toNat - '0'.toNat)
  else if 'a' ≤ c ∧ c ≤ 'f' then some (c.toNat - 'a'.toNat + 10)
  else if 'A' ≤ c ∧ c ≤ 'F' then some (c.toNat - 'A'.toNat + 10)
  else none

/-- Parse the body of a JSON string (after the opening quote), handling the
escape sequences `json.loads` accepts. -/
def parseStrBody : Nat → PyStr → Option (PyStr × PyStr)
  | 0, _ => none
  | _ + 1, [] => none
  | _ + 1, '"' :: rest => some ([], rest)
  | fuel + 1, '\\' :: rest =>
    match rest with
    | '"' :: r => (parseStrBody fuel r).map (fun p => ('"' :: p.1, p.2))
    | '\\' :: r => (parseStrBody fuel r).map (fun p => ('\\' :: p.1, p.2))
    | '/' :: r => (parseStrBody fuel r).map (fun p => ('/' :: p.1, p.2))
    | 'n' :: r => (parseStrBody fuel r).map (fun p => ('\n' :: p.1, p.2))
    | 't' :: r => (parseStrBody fuel r).map (fun p => ('\t' :: p.1, p.2))
    | 'r' :: r => (parseStrBody fuel r).map (fun p => ('\x0d' :: p.1, p.2))
    | 'b' :: r => (parseStrBody fuel r).map (fun p => ('\x08' :: p.1, p.2))
    | 'f' :: r => (parseStrBody fuel r).map (fun p => ('\x0c' :: p.1, p.2))
    | 'u' :: a :: b :: c :: d :: r =>
      match hexVal a, hexVal b, hexVal c, hexVal d with
      | some x, some y, some z, some w =>
        let n := ((x * 16 + y) * 16 + z) * 16 + w
        if h : n.isValidChar then
          (parseStrBody fuel r).map (fun p => (Char.ofNatAux n h :: p.1, p.2))
        else none
      | _, _, _, _ => none
    | _ => none
  | fuel + 1, c :: rest => (parseStrBody fuel rest).map (fun p => (c :: p.1, p.2))

/-- Parse a run of decimal digits into a natural number. -/
def digitsToNat (ds : PyStr) : Nat :=
  ds.foldl (fun acc c => acc * 10 + (c.toNat - '0'.toNat)) 0

mutual

/-- Parse one JSON value from the front of the input (leading whitespace
allowed), returning the value and the unconsumed remainder. -/
def parseVal : Nat → PyStr → Option (Json × PyStr)
  | 0, _ => none
  | fuel + 1, s =>
    match s.dropWhile isWsChar with
    | '{' :: r => parseObjBody fuel r
    | '[' :: r => parseArrBody fuel r
    | '"' :: r => (parseStrBody (r.length + 1) r).map (fun p => (.str p.1, p.2))
    | 't' :: 'r' :: 'u' :: 'e' :: r => some (.bool true, r)
    | 'f' :: 'a' :: 'l' :: 's' :: 'e' :: r => some (.bool false, r)
    | 'n' :: 'u' :: 'l' :: 'l' :: r => some (.null, r)
    | '-' :: r =>
      let ds := r.takeWhile (·.isDigit)
      if ds.isEmpty then none
      else some (.num (-(digitsToNat ds : Int)), r.dropWhile (·.isDigit))
    | c :: r =>
      if c.isDigit then
        let ds := (c :: r).takeWhile (·.isDigit)
        some (.num (digitsToNat ds : Int), (c :: r).dropWhile (·.isDigit))
      else none
    | [] => none

/-- Parse the members of a JSON array (after the opening bracket). -/
def parseArrBody : Nat → PyStr → Option (Json × PyStr)
  | 0, _ => none
  | fuel + 1, s =>
    match s.dropWhile isWsChar with
    | ']' :: r => some (.arr [], r)
    | s' =>
      match parseVal fuel s' with
      | none => none
      | some (v, rest) =>
        match rest.dropWhile isWsChar with
        | ',' :: r2 =>
          match parseArrBody fuel r2 with
          | some (.arr vs, r3) => some (.arr (v :: vs), r3)
          | _ => none
        | ']' :: r2 => some (.arr [v], r2)
        | _ => none

/-- Parse the members of a JSON object (after the opening brace). -/
def parseObjBody : Nat → PyStr → Option (Json × PyStr)
  | 0, _ => none
  | fuel + 1, s =>
    match s.dropWhile isWsChar with
    | '}' :: r => some (.obj [], r)
    | '"' :: r =>
      match parseStrBody (r.length + 1) r with
      | none => none
      | some (key, rest) =>
        match rest.dropWhile isWsChar with
        | ':' :: r2 =>
          match parseVal fuel r2 with
          | none => none
          | some (v, rest2) =>
            match rest2.dropWhile isWsChar with
            | ',' :: r3 =>
              match parseObjBody fuel r3 with
              | some (.obj kvs, r4) => some (.obj ((key, v) :: kvs), r4)
              | _ => none
            | '}' :: r3 => some (.obj [(key, v)], r3)
            | _ => none
        | _ => none
    | _ => none

end

/-- Model of Python `json.loads`: strip surrounding whitespace, parse one
value, and require that nothing but whitespace remains.  `none` models a
raised `json.JSONDecodeError`. -/
def jsonParse (s : PyStr) : Option Json :=
  match parseVal ((pyTrim s).length + 1) (pyTrim s) with
  | some (v, rest) => if rest.all isWsChar then some v else none
  | none => none

/-- `json.loads` ignores surrounding whitespace: parsing the stripped text
gives the same result. -/
theorem jsonParse_pyTrim (s : PyStr) : jsonParse (pyTrim s) = jsonParse s := by
  unfold jsonParse
  rw [pyTrim_idem]

example : jsonParse "\x7b\"diseases\": [\"a\", \"b\"]\x7d".toList =
    some (.obj [("diseases".toList, .arr [.str "a".toList, .str "b".toList])]) := rfl

example : jsonParse "not json".toList = none := rfl

example : jsonParse "  [1, -2, true, false, null]  ".toList =
    some (.arr [.num 1, .num (-2), .bool true, .bool false, .null]) := rfl

example : jsonParse "\"a\\\"b\"".toList = some (.str ['a', '"', 'b']) := rfl

/-! ## Python value semantics: truthiness and `str()` -/

/-- Python truthiness of a value produced by `json.loads`. -/
def pyTruthy : Json → Bool
  | .null => false
  | .bool b => b
  | .num i => i ≠ 0
  | .str s => !s.isEmpty
  | .arr l => !l.isEmpty
  | .obj l => !l.isEmpty

/-- Join rendered pieces with a separator. -/
def joinSep (sep : PyStr) (l : List PyStr) : PyStr :=
  (l.intersperse sep).flatten

mutual

/-- Python `repr()` of a value produced by `json.loads` (used by `str()` on
containers; quote escaping inside nested strings is not reproduced, which no
claim depends on). -/
def pyRepr : Json → PyStr
  | .null => "None".toList
  | .bool true => "True".toList
  | .bool false => "False".toList
  | .num i => (toString i).toList
  | .str s => '\'' :: (s ++ ['\''])
  | .arr xs => '[' :: (joinSep ", ".toList (pyReprList xs) ++ [']'])
  | .obj kvs => '\x7b' :: (joinSep ", ".toList (pyReprObj kvs) ++ ['\x7d'])

def pyReprList : List Json → List PyStr
  | [] => []
  | x :: xs => pyRepr x :: pyReprList xs

def pyReprObj : List (PyStr × Json) → List PyStr
  | [] => []
  | (k, v) :: kvs =>
    ('\'' :: (k ++ ['\''] ++ ": ".toList) ++ pyRepr v) :: pyReprObj kvs

end

/-- Python `str()` of a value produced by `json.loads`. -/
def pyToStr : Json → PyStr
  | .str s => s
  | v => pyRepr v

/-! ## `QwenAPI` / `PromptOptimizer` response handling -/

def diseasesKey : PyStr := "diseases".toList

def errorKey : PyStr := "error".toList

/-- Escaping applied by `json.dumps` to the characters that can appear in
the strings this system round-trips. -/
def jsonEscape (s : PyStr) : PyStr :=
  s.flatMap fun c =>
    if c = '"' then ['\\', '"']
    else if c = '\\' then ['\\', '\\']
    else if c = '\n' then ['\\', 'n']
    else if c = '\t' then ['\\', 't']
    else if c = '\x0d' then ['\\', 'r']
    else [c]

/-- `json.dumps({'diseases': ds}, ensure_ascii=False, indent=2)`, the exact
wire shape `QwenAPI.predict` returns. -/
def dumpsDiseases (ds : List PyStr) : PyStr :=
  let items := ds.map (fun s => "    \"".toList ++ jsonEscape s ++ ['"'])
  "\x7b\n  \"diseases\": ".toList ++
    (if ds.isEmpty then "[]".toList
     else "[\n".toList ++ joinSep ",\n".toList items ++ "\n  ]".toList) ++
  "\n\x7d".toList

example : dumpsDiseases [] = "\x7b\n  \"diseases\": []\n\x7d".toList := rfl

example : dumpsDiseases ["a".toList, "b".toList] =
    "\x7b\n  \"diseases\": [\n    \"a\",\n    \"b\"\n  ]\n\x7d".toList := rfl

/-- Python `s.find(pat)` scanning from the head, as an index option
(`none` models the `-1` result). -/
def findSubAux (pat : PyStr) : PyStr → Nat → Option Nat
  | [], i => if pat.isEmpty then some i else none
  | s@(_ :: rest), i =>
    if pat.isPrefixOf s then some i else findSubAux pat rest (i + 1)

/-- Where the fenced content starts: after the first newline, or index `0`
when there is none (Python's `find` returns `-1`, and `-1 + 1 = 0`). -/
def fenceContentStart (cleaned : PyStr) : Nat :=
  match findSubAux ['\n'] cleaned 0 with
  | some i => i + 1
  | none => 0

/-- The Markdown-fence stripping step of `extract_diseases_from_response`
(`prompt_optimizer.py`, lines 106-118).  The first `"```"` sits at index 0
whenever the stripped response starts with one. -/
def stripFences (response : PyStr) : PyStr :=
  if "```".toList.isPrefixOf (pyTrim response) then
    match findSubAux "```".toList
        ((pyTrim response).drop (fenceContentStart (pyTrim response))) 0 with
    | some j =>
      pyTrim (((pyTrim response).drop
        (fenceContentStart (pyTrim response))).take j)
    | none => pyTrim response
  else pyTrim response

/-- `PromptOptimizer.extract_diseases_from_response`: recover a disease-name
list from model output text (`prompt_optimizer.py`, lines 103-147). -/
def extract_diseases_from_response (response : PyStr) : List PyStr :=
  let cleaned := stripFences response
  match jsonParse cleaned with
  | none => []                      -- JSONDecodeError caught: empty fallback
  | some result =>
    match result with
    | .obj fields =>
      if objHasKey fields errorKey then []
      else
        match objGet fields diseasesKey with
        | some (.arr ds) =>
          (ds.filter (fun d => pyTruthy d && !(pyTrim (pyToStr d)).isEmpty)).map
            (fun d => pyTrim (pyToStr d))
        | some d => if pyTruthy d then [pyTrim (pyToStr d)] else []
        | none => []                -- dict without `diseases`: invalid format
    | _ => []                       -- non-dict value: invalid format

example : extract_diseases_from_response
    "\x7b\"diseases\": [\"肺炎\", \" \", \"\"]\x7d".toList = ["肺炎".toList] := rfl

example : extract_diseases_from_response
    "```json\n\x7b\"diseases\": [\"a\"]\x7d\n```".toList = ["a".toList] := rfl

example : extract_diseases_from_response
    "\x7b\"error\": \"boom\", \"diseases\": [\"a\"]\x7d".toList = [] := rfl

example : extract_diseases_from_response
    "\x7b\"diseases\": \"flu\"\x7d".toList = ["flu".toList] := rfl

example : extract_diseases_from_response "\x7b\"diseases\": \"   \"\x7d".toList
    = [[]] := rfl

/-! ## The JSON-extraction scan of `QwenAPI.predict`

`api_clients.py`, lines 257-269: on a direct-parse failure the code runs
`re.findall(r'\{[^{}]*"diseases"\s*:\s*\[[^\]]*\][^{}]*\}', content)` and
parses `matches[0]`.  The matcher below reproduces the leftmost-then-greedy
semantics of that fixed pattern: at each start position the engine prefers
the longest brace-free run before the `"diseases"` literal and backtracks
over shorter runs; the `[^\]]*` and `[^{}]*` runs are forced by their
negated classes. -/

def nonBrace (c : Char) : Bool := !(c = '\x7b') && !(c = '\x7d')

/-- The literal `"diseases"` (with its quotes) inside the regex. -/
def dqDiseases : PyStr := '"' :: ("diseases".toList ++ ['"'])

/-- Try to finish a match of the pattern in `r` (the text after the opening
brace), where the `"diseases"` literal sits at offset `k`.  On success
returns the number of characters of `r` consumed (up to and including the
closing brace). -/
def shapeTailMatch (r : PyStr) (k : Nat) : Option Nat :=
  let after := r.drop (k + dqDiseases.length)
  let a1 := after.dropWhile isWsChar          -- \s*
  match a1 with
  | ':' :: a2 =>
    let a3 := a2.dropWhile isWsChar           -- \s*
    match a3 with
    | '[' :: a4 =>
      let inside := a4.takeWhile (fun c => !(c = ']'))   -- [^\]]*
      match a4.drop inside.length with
      | ']' :: a6 =>
        let tailp := a6.takeWhile nonBrace    -- [^{}]*
        match a6.drop tailp.length with
        | '\x7d' :: a8 => some (r.length - a8.length)
        | _ => none
      | _ => none
    | _ => none
  | _ => none

/-- Match the fixed `diseases` pattern at the head of `s`, returning the
matched substring. -/
def matchShapeAt (s : PyStr) : Option PyStr :=
  match s with
  | '\x7b' :: r =>
    let ks := ((List.range (r.length + 1)).filter
        (fun k => (r.take k).all nonBrace && dqDiseases.isPrefixOf (r.drop k))).reverse
    match ks.findSome? (fun k => shapeTailMatch r k) with
    | some consumed => some (s.take (consumed + 1))
    | none => none
  | _ => none

/-- `re.findall(pattern, content)[0]`: the leftmost match of the pattern. -/
def firstShapeMatch (s : PyStr) : Option PyStr :=
  s.tails.findSome? matchShapeAt

example : firstShapeMatch "xx\x7b\"diseases\": [\"a\"]\x7d yy".toList =
    some "\x7b\"diseases\": [\"a\"]\x7d".toList := rfl

example : firstShapeMatch "\x7b\"diseases\":[1],\"a\":2\x7d".toList =
    some "\x7b\"diseases\":[1],\"a\":2\x7d".toList := rfl

example : firstShapeMatch "\x7b\x7b\"diseases\":[1]\x7d x".toList =
    some "\x7b\"diseases\":[1]\x7d".toList := rfl

example : firstShapeMatch "no json here".toList = none := rfl

/-- Whether `m` is, in its entirety, a match of the pattern (claim-side
notion of "a substring of the shape"). -/
def isShapeStr (m : PyStr) : Bool :=
  match matchShapeAt m with
  | some m' => m' = m
  | none => false

/-- All contiguous substrings of `s`. -/
def allInfixes (s : PyStr) : List PyStr := s.tails.flatMap List.inits

/-- All contiguous substrings of `s` that match the pattern. -/
def shapeInfixes (s : PyStr) : List PyStr := (allInfixes s).filter isShapeStr

/-! ## `QwenAPI.predict` cleaning / standardization -/

/-- The canonical empty payload `json.dumps({'diseases': []}, ...)`. -/
def emptyDiseasesJson : PyStr := dumpsDiseases []

/-- The standardization step of `QwenAPI.predict` (`api_clients.py`,
lines 271-281), applied to a successfully parsed value. -/
def qwenStandardize (result : Json) : PyStr :=
  match result with
  | .obj fields =>
    match objGet fields diseasesKey with
    | some (.arr ds) =>
      dumpsDiseases
        ((ds.filter (fun d => pyTruthy d && !(pyTrim (pyToStr d)).isEmpty)).map
          (fun d => pyTrim (pyToStr d)))
    | some d =>
      if pyTruthy d then dumpsDiseases [pyTrim (pyToStr d)] else emptyDiseasesJson
    | none => emptyDiseasesJson
  | _ => emptyDiseasesJson

/-- The response-cleaning pipeline of `QwenAPI.predict` (`api_clients.py`,
lines 252-281), from the stripped chat content to the returned payload. -/
def qwenClean (content : PyStr) : PyStr :=
  match jsonParse content with
  | some result => qwenStandardize result
  | none =>
    match firstShapeMatch content with
    | some m =>
      match jsonParse m with
      | some result => qwenStandardize result
      | none => emptyDiseasesJson     -- "JSON提取失败"
    | none => emptyDiseasesJson       -- "未找到符合格式的JSON"

/-- The JSON-format instruction appended by `QwenAPI.predict` when the
prompt does not mention `diseases` (`api_clients.py`, lines 200-217). -/
def formatInstruction : PyStr :=
  ("\n请严格按照以下JSON格式返回结果：\n\x7b\n    \"diseases\": [\n        \"疾病1\",\n        \"疾病2\"\n    ]\n\x7d\n\n格式要求：\n1. 必须是合法的JSON格式\n2. diseases数组必须存在，即使为空也要保留\n3. 每个疾病名称必须是非空字符串\n4. 不要在JSON外添加任何注释或说明\n5. 不要使用Markdown代码块\n\n示例输出：\n\x7b\"diseases\": [\"支气管炎\", \"肺气肿\"]\x7d").toList

/-- Python's substring test `pat in s`. -/
def containsSub (pat s : PyStr) : Bool :=
  s.tails.any (fun t => pat.isPrefixOf t)

/-- Prompt enhancement in `QwenAPI.predict` (`api_clients.py`, 198-220). -/
def enhancedPrompt (prompt : PyStr) : PyStr :=
  if containsSub "diseases".toList prompt then prompt
  else prompt ++ "\n\n".toList ++ formatInstruction

/-! ## Kernel-computable rational arithmetic

The scores the code manipulates are modelled as `ℚ`.  The field operations
`+`, `-`, `/` on `ℚ` do not reduce inside the kernel, so the embedding uses
the `mkRat`-based operations below (provably equal to the field operations)
and all concrete runs stay evaluable by `decide`. -/

/-- Computable addition on `ℚ`. -/
def qAdd (a b : ℚ) : ℚ := mkRat (a.num * b.den + b.num * a.den) (a.den * b.den)

/-- Computable subtraction on `ℚ`. -/
def qSub (a b : ℚ) : ℚ := mkRat (a.num * b.den - b.num * a.den) (a.den * b.den)

/-- Computable division of a rational by a natural number. -/
def qDivNat (a : ℚ) (n : Nat) : ℚ := mkRat a.num (a.den * n)

/-- Computable absolute value on `ℚ`. -/
def qAbs (a : ℚ) : ℚ := if a.num < 0 then mkRat (-a.num) a.den else a

theorem mkRat_eq_div' (n : Int) (d : Nat) : mkRat n d = (n : ℚ) / (d : ℚ) := by
  rw [Rat.mkRat_eq_divInt, Rat.divInt_eq_div, Int.cast_natCast]

theorem qAdd_eq (a b : ℚ) : qAdd a b = a + b := by
  have h1 : (a.den : ℤ) ≠ 0 := Int.ofNat_ne_zero.2 a.den_nz
  have h2 : (b.den : ℤ) ≠ 0 := Int.ofNat_ne_zero.2 b.den_nz
  unfold qAdd
  rw [Rat.mkRat_eq_divInt]
  push_cast
  rw [← Rat.divInt_add_divInt _ _ h1 h2, Rat.num_divInt_den, Rat.num_divInt_den]

theorem qSub_eq (a b : ℚ) : qSub a b = a - b := by
  have h1 : (a.den : ℤ) ≠ 0 := Int.ofNat_ne_zero.2 a.den_nz
  have h2 : (b.den : ℤ) ≠ 0 := Int.ofNat_ne_zero.2 b.den_nz
  unfold qSub
  rw [Rat.mkRat_eq_divInt]
  push_cast
  rw [← Rat.divInt_sub_divInt _ _ h1 h2, Rat.num_divInt_den, Rat.num_divInt_den]

theorem qDivNat_eq (a : ℚ) (n : Nat) : qDivNat a n = a / n := by
  unfold qDivNat
  rcases Nat.eq_zero_or_pos n with hn | hn
  · subst hn
    simp [mkRat_eq_div']
  · have ha : ((a.den : ℚ)) ≠ 0 := by exact_mod_cast a.den_nz
    rw [mkRat_eq_div']
    push_cast
    conv_rhs => rw [← Rat.num_div_den a]
    rw [div_div]

theorem qAbs_eq (a : ℚ) : qAbs a = |a| := by
  unfold qAbs
  split
  · rename_i h
    have hneg : a < 0 := by rwa [← Rat.num_neg]
    rw [abs_of_neg hneg, Rat.mkRat_eq_divInt, ← Rat.neg_def]
  · rename_i h
    have hpos : 0 ≤ a := by rw [← Rat.num_nonneg]; omega
    rw [abs_of_nonneg hpos]

/-! ## Label normalization, `calculate_overlap`, `analyze_differences` -/

/-- The characters stripped by `d.strip('.,，。 \t')` in both scorers. -/
def labelStripChars : List Char := ['.', ',', '，', '。', ' ', '\t']

/-- `d.strip('.,，。 \t').lower()`: label normalization. -/
def normLabel (d : PyStr) : PyStr := lowerStr (stripBoth labelStripChars d)

/-- The normalized label set `{d.strip('.,，。 \t').lower() for d in l if d}`
built by both `calculate_overlap` and `analyze_differences`. -/
def normSet (l : List PyStr) : Finset PyStr :=
  ((l.filter (fun d => !d.isEmpty)).map normLabel).toFinset

/-- What `calculate_overlap` (`main.py`, 89-114) actually returns: either
the bare float `0.0`, or the result record (a Python dict). -/
inductive OverlapResult where
  | bare (x : ℚ)
  | record (score : ℚ) (overlap missed extra : Finset PyStr)
deriving DecidableEq

/-- `calculate_overlap` (`main.py`, lines 89-114). -/
def calculate_overlap (predicted_diseases ground_truth : List PyStr) :
    OverlapResult :=
  if predicted_diseases.isEmpty || ground_truth.isEmpty then .bare 0
  else if normSet predicted_diseases = ∅ ∨ normSet ground_truth = ∅ then .bare 0
  else
    .record
      (mkRat ((normSet predicted_diseases ∩ normSet ground_truth).card : Int)
        ((normSet predicted_diseases ∪ normSet ground_truth).card))
      (normSet predicted_diseases ∩ normSet ground_truth)
      (normSet ground_truth \ normSet predicted_diseases)
      (normSet predicted_diseases \ normSet ground_truth)

/-- The overlap score, reading the record's `score` member and the bare
float alike (claim-side view of "the overlap score"). -/
def overlapScore (a b : List PyStr) : ℚ :=
  match calculate_overlap a b with
  | .bare x => x
  | .record s _ _ _ => s

example : calculate_overlap ["肺炎".toList] ["肺炎。".toList] =
    .record 1 {"肺炎".toList} ∅ ∅ := by decide

example : calculate_overlap ["a".toList] ["b".toList] =
    .record 0 ∅ {"b".toList} {"a".toList} := by decide

/-- The difference report built by `PromptOptimizer.analyze_differences`.
Python renders the three sets as lists in arbitrary set order; they are
modelled as the underlying finite sets. -/
structure DiffReport where
  missed : Finset PyStr
  wrong : Finset PyStr
  correct : Finset PyStr
  accuracy : ℚ
  precision : ℚ
deriving DecidableEq

/-- `PromptOptimizer.analyze_differences` (`prompt_optimizer.py`, 84-101). -/
def analyze_differences (predicted ground_truth : List PyStr) : DiffReport :=
  let pred_set := normSet predicted
  let truth_set := normSet ground_truth
  { missed := truth_set \ pred_set
    wrong := pred_set \ truth_set
    correct := pred_set ∩ truth_set
    accuracy :=
      if truth_set = ∅ then 0
      else mkRat ((pred_set ∩ truth_set).card : Int) (max truth_set.card 1)
    precision :=
      if pred_set = ∅ then 0
      else mkRat ((pred_set ∩ truth_set).card : Int) (max pred_set.card 1) }

/-- `process_input_data` (`main.py`, lines 52-87): coerce loaded JSON (or a
predicted list, passed as a JSON array of strings) to a disease list. -/
def process_input_data (input_data : Json) : List PyStr :=
  match input_data with
  | .arr l =>
    l.filterMap fun d =>
      match d with
      | .null => none                      -- `if d is not None`
      | d => some (pyTrim (pyToStr d))
  | .obj fields =>
    match objGet fields diseasesKey with
    | some (.arr ds) =>
      ds.filterMap fun d =>
        match d with
        | .null => none
        | d => some (pyTrim (pyToStr d))
    | some .null => []                     -- `elif diseases is not None` fails
    | some d => [pyTrim (pyToStr d)]       -- a single non-None value
    | none => []                           -- no `diseases` key: warning, []
  | _ => []                                -- None / unknown type: []

example : process_input_data (.obj [(diseasesKey, .str " flu ".toList)]) =
    ["flu".toList] := rfl

example : process_input_data (.arr [.str "a".toList, .null, .num 3]) =
    ["a".toList, "3".toList] := rfl

/-- One entry of an iteration record's `analysis_results`. -/
structure CaseAnalysis where
  case_id : PyStr
  predictions : List PyStr
  ground_truth : List PyStr
  differences : DiffReport
  analysis_report : PyStr
deriving DecidableEq

/-- The `summary` member of an iteration record. -/
structure Summary where
  total_cases : Nat
  common_missed : Finset PyStr
  common_wrong : Finset PyStr
deriving DecidableEq

/-- One record of `PromptOptimizer.optimization_history`. -/
structure IterationRecord where
  iteration : Nat
  old_prompt : PyStr
  new_prompt : PyStr
  analysis_results : List CaseAnalysis
  summary : Summary
deriving DecidableEq

/-- One entry of the feedback bundle (`case_analyses`) built for the
optimizer service from the previous record. -/
structure FeedbackCase where
  case_id : PyStr
  predictions : List PyStr
  ground_truth : List PyStr
  missed_diagnoses : Finset PyStr
  wrong_diagnoses : Finset PyStr
  analysis_report : PyStr

/-- The `previous_analysis` structure passed to the optimizer service. -/
structure PrevAnalysis where
  prompt : PyStr
  case_analyses : List FeedbackCase
  analysis_summary : Summary

/-- The context given to `DeepSeekAPI.generate_prompt`. -/
structure OptimizeInput where
  base_prompt : PyStr
  iteration : Nat
  previous_analysis : Option PrevAnalysis

/-- The context given to `DeepSeekAPI.analyze_results`. -/
structure AnalyzeInput where
  base_prompt : PyStr
  input_data : Json
  predictions : List PyStr
  ground_truth : List PyStr
  differences : DiffReport

/-- The three external text-generation services, as opaque total
functions: the raw chat content each returns for a given request.  (The
bounded network retries inside the clients either produce such content or
fall into the clients' catch-all fallbacks; neither path raises.) -/
structure Services where
  optimizeRaw : OptimizeInput → PyStr
  analyzeText : AnalyzeInput → PyStr
  predictRaw : PyStr → Json → PyStr

/-- `QwenAPI.predict`: enhance the prompt, call the model, clean the
response (`api_clients.py`, lines 191-285). -/
def qwen_predict (svc : Services) (prompt : PyStr) (data : Json) : PyStr :=
  qwenClean (pyTrim (svc.predictRaw (enhancedPrompt prompt) data))

/-- `PromptOptimizer.predict_diseases` (`prompt_optimizer.py`, 324-337):
up to three attempts, returning the first non-empty extraction, else `[]`.
The pipeline is deterministic, so retries re-run the same computation. -/
def predict_diseases (svc : Services) (prompt : PyStr) (data : Json) :
    List PyStr :=
  (List.range 3).foldl
    (fun acc _ =>
      if acc.isEmpty then
        extract_diseases_from_response (qwen_predict svc prompt data)
      else acc)
    []

/-! ## `DeepSeekAPI.generate_prompt` candidate validation -/

def marker_task : PyStr := "【任务说明】".toList
def marker_rules : PyStr := "【重要规则】".toList
def marker_output_req : PyStr := "【输出要求】".toList
def marker_output_fmt : PyStr := "【输出格式】".toList

/-- `all(section in content for section in [...])` (`api_clients.py`, 125). -/
def containsAllMarkers (content : PyStr) : Bool :=
  containsSub marker_task content && containsSub marker_rules content &&
    containsSub marker_output_req content && containsSub marker_output_fmt content

/-- The validation step of `DeepSeekAPI.generate_prompt` (`api_clients.py`,
lines 124-135): a candidate missing a section marker, or not splitting into
exactly five parts on `'【'`, is replaced by the context's base prompt. -/
def validate_candidate (content base_prompt : PyStr) : PyStr :=
  if !containsAllMarkers content then base_prompt
  else if (content.splitOn '【').length ≠ 5 then base_prompt
  else content

/-- `DeepSeekAPI.generate_prompt` (`api_clients.py`, 54-139): the optimizer
service call (content is `.strip()`-ed by `_make_api_call`) followed by the
skeleton validation. -/
def ds_generate_prompt (svc : Services) (input : OptimizeInput) : PyStr :=
  validate_candidate (pyTrim (svc.optimizeRaw input)) input.base_prompt

/-! ## `PromptOptimizer.generate_prompt` -/

/-- `self.base_prompt_template` (`prompt_optimizer.py`, lines 16-35). -/
def base_prompt_template : PyStr :=
  ("你是一位拥有30年临床经验的资深医生，精通各种医学影像的解读和疾病诊断。请严格按照以下要求分析患者的影像报告：\n\n【任务说明】\n仔细分析输入的医学影像数据，识别所有异常描述，结合临床经验判断可能的疾病。你需要综合考虑各项指标之间的相互关系，而不是孤立地看待单个异常值。\n\n【重要规则】\n1. 只输出有明确异常支持的疾病诊断\n2. 如果指标在正常范围内或异常程度轻微，不作为诊断依据\n3. 优先考虑常见病、多发病\n4. 使用标准ICD-10疾病命名，但一定不要输出icd-10编码，只许输出疾病名称\n5. 必须保证输出格式不变\n\n【输出要求】\n1. 必须以 JSON 格式输出，包含 diseases 数组\n2. 不要输出任何解释性文字\n\n【输出格式】\n\x7b\n    \"diseases\": [\"疾病1\", \"疾病2\", \"疾病3\"]\n\x7d").toList

example : containsAllMarkers base_prompt_template = true := by decide

example : (base_prompt_template.splitOn '【').length = 5 := by decide

/-- One loaded case, a dict that may be missing keys (the per-case loop in
`generate_prompt` checks `all(key in case for key in [...])`). -/
structure CaseData where
  case_id : Option PyStr
  input_data : Option Json
  gt_data : Option Json

/-- The mutable state of a `PromptOptimizer` instance. -/
structure OptState where
  current_iteration : Nat
  optimization_history : List IterationRecord
deriving DecidableEq

/-- The `context` dict `main` passes to `generate_prompt`; every key is
optional because the code reads each with `context.get`. -/
structure GenContext where
  iteration : Option Nat
  base_prompt : Option PyStr
  all_cases : Option (List CaseData)
  previous_results : Option (ℚ × Nat)

/-- Python `not context` on the context dict. -/
def ctxIsEmpty (c : GenContext) : Bool :=
  c.iteration.isNone && c.base_prompt.isNone && c.all_cases.isNone &&
    c.previous_results.isNone

/-- The list `analyze_differences` effectively receives for
`case_data['gt_data'].get('diseases', [])` (`prompt_optimizer.py`, 153):
`none` models the exceptions Python raises while normalizing the value
(`.get` on a non-dict, iterating a non-iterable, `.strip` on a truthy
non-string element); a raised exception makes the per-case loop skip the
case.  Falsy non-string elements are dropped, exactly as the
`if d` filter inside `analyze_differences` drops them; iterating a string
yields its characters, iterating a dict its keys. -/
def gtStrings (gt : Json) : Option (List PyStr) :=
  match gt with
  | .obj fields =>
    match objGet fields diseasesKey with
    | none => some []
    | some (.arr xs) =>
      if xs.all (fun d => match d with | .str _ => true | _ => !pyTruthy d) then
        some (xs.filterMap (fun d => match d with | .str s => some s | _ => none))
      else none
    | some (.str s) => some (s.map (fun c => [c]))
    | some (.obj kvs) => some ((kvs.map (·.1)).dedup)
    | some _ => none
  | _ => none

/-- `PromptOptimizer.analyze_results` for one case, combined with the
key-completeness check of the per-case loop in `generate_prompt`
(`prompt_optimizer.py`, 149-173 and 266-292).  `none` models a skipped
case (incomplete keys, or an exception while reading the ground truth). -/
def analyzeCase (svc : Services) (optimized_prompt : PyStr) (c : CaseData) :
    Option CaseAnalysis :=
  match c.case_id, c.input_data, c.gt_data with
  | some cid, some input, some gt =>
    match gtStrings gt with
    | none => none
    | some gt_diseases =>
      let predicted := predict_diseases svc optimized_prompt input
      let differences := analyze_differences predicted gt_diseases
      let report := svc.analyzeText
        ⟨optimized_prompt, input, predicted, gt_diseases, differences⟩
      some ⟨cid, predicted, gt_diseases, differences, report⟩
  | _, _, _ => none

/-- Build a feedback entry from a previous case analysis
(`prompt_optimizer.py`, 219-232; the `KeyError` catch never fires because
stored records always carry all keys). -/
def toFeedback (r : CaseAnalysis) : FeedbackCase :=
  ⟨r.case_id, r.predictions, r.ground_truth, r.differences.missed,
   r.differences.wrong, r.analysis_report⟩

/-- The candidate-prompt request of `PromptOptimizer.generate_prompt`
(`prompt_optimizer.py`, 198-250): round 1 passes no feedback; later rounds
build the feedback bundle from the last record.  `none` models an early
`return base_prompt` (no history, or no valid feedback entries). -/
def genCandidate (svc : Services) (base_prompt : PyStr) (iter : Nat)
    (history : List IterationRecord) : Option PyStr :=
  if iter = 1 then some (ds_generate_prompt svc ⟨base_prompt, iter, none⟩)
  else
    match history.getLast? with
    | none => none                          -- no history on iteration ≥ 2
    | some last =>
      if (last.analysis_results.map toFeedback).isEmpty then none
      else some (ds_generate_prompt svc
        ⟨base_prompt, iter,
         some ⟨last.new_prompt, last.analysis_results.map toFeedback,
           last.summary⟩⟩)

/-- The iteration record built at `prompt_optimizer.py`, 298-309. -/
def mkIterationRecord (iter : Nat) (base_prompt optimized : PyStr)
    (all_cases : List CaseData) (analysis_results : List CaseAnalysis) :
    IterationRecord :=
  ⟨iter, base_prompt, optimized, analysis_results,
   ⟨all_cases.length,
    analysis_results.foldl (fun acc r => acc ∪ r.differences.missed) ∅,
    analysis_results.foldl (fun acc r => acc ∪ r.differences.wrong) ∅⟩⟩

/-- `PromptOptimizer.generate_prompt` after `current_iteration` has been
updated (`st1` carries the new iteration number and the old history). -/
def gpAfterIter (svc : Services) (ctx : GenContext) (st1 : OptState) :
    OptState × PyStr :=
  if (ctx.all_cases.getD []).isEmpty then
    (st1, ctx.base_prompt.getD base_prompt_template)
  else
    match genCandidate svc (ctx.base_prompt.getD base_prompt_template)
        st1.current_iteration st1.optimization_history with
    | none => (st1, ctx.base_prompt.getD base_prompt_template)
    | some optimized =>
      if optimized.isEmpty then
        (st1, ctx.base_prompt.getD base_prompt_template)
      else if !containsSub marker_rules optimized then
        (st1, ctx.base_prompt.getD base_prompt_template)
      else
        match (ctx.all_cases.getD []).filterMap (analyzeCase svc optimized) with
        | [] => (st1, ctx.base_prompt.getD base_prompt_template)
        | r :: rs =>
          ({ st1 with
              optimization_history := st1.optimization_history ++
                [mkIterationRecord st1.current_iteration
                  (ctx.base_prompt.getD base_prompt_template) optimized
                  (ctx.all_cases.getD []) (r :: rs)] },
           optimized)

/-- `PromptOptimizer.generate_prompt` (`prompt_optimizer.py`, 175-322).
Returns the new optimizer state and the prompt handed back to `main`.
Every early-failure path returns the base prompt and leaves the history
untouched; the success path appends exactly one record. -/
def generate_prompt (svc : Services) (ctx : GenContext) (st : OptState) :
    OptState × PyStr :=
  if ctxIsEmpty ctx then (st, base_prompt_template)
  else
    gpAfterIter svc ctx
      ⟨ctx.iteration.getD (st.current_iteration + 1), st.optimization_history⟩

/-! ## `evaluate_optimization_progress` -/

inductive ProgressStatus where
  | no_progress | improving | stagnating | unstable
deriving DecidableEq

/-- The mean per-case accuracy of one iteration record
(`prompt_optimizer.py`, 353-363; every stored entry carries the
`differences`/`accuracy` keys). -/
def iterationAccuracy (r : IterationRecord) : ℚ :=
  let accs := r.analysis_results.map (fun c => c.differences.accuracy)
  if accs.length > 0 then qDivNat (accs.foldl qAdd 0) accs.length else 0

/-- The `accuracy_trend` list. -/
def accuracyTrend (history : List IterationRecord) : List ℚ :=
  history.map iterationAccuracy

/-- `is_improving` (`prompt_optimizer.py`, 370): at least two trend points
and the last strictly above the previous. -/
def trendImprovingB (t : List ℚ) : Bool :=
  decide (2 ≤ t.length) &&
    decide (t.getD (t.length - 2) 0 < t.getD (t.length - 1) 0)

/-- `is_stagnating` (`prompt_optimizer.py`, 371-374): at least three trend
points and the two most recent consecutive deltas below `0.01`. -/
def trendStagnatingB (t : List ℚ) : Bool :=
  decide (3 ≤ t.length) &&
    decide (qAbs (qSub (t.getD (t.length - 1) 0) (t.getD (t.length - 2) 0)) <
      mkRat 1 100) &&
    decide (qAbs (qSub (t.getD (t.length - 2) 0) (t.getD (t.length - 3) 0)) <
      mkRat 1 100)

/-- The trend classification of `evaluate_optimization_progress`
(`prompt_optimizer.py`, 369-381). -/
def classifyTrend (t : List ℚ) : ProgressStatus :=
  if trendImprovingB t then .improving
  else if trendStagnatingB t then .stagnating
  else .unstable

/-- `PromptOptimizer.evaluate_optimization_progress` (`prompt_optimizer.py`,
339-389), reduced to its `status` member (the only one the loop reads). -/
def evaluate_optimization_progress (st : OptState) : ProgressStatus :=
  if st.optimization_history.isEmpty then .no_progress
  else classifyTrend (accuracyTrend st.optimization_history)

/-! ## The optimization control loop (`main.py`, 164-345) -/

/-- Why the loop stopped. -/
inductive Cause where
  | perfect      -- `avg_overlap == 1.0` after an improvement
  | stagnation   -- `stagnation_count >= 5`
  | maxRounds    -- `range(max_iterations)` exhausted
deriving DecidableEq

/-- Observable facts about one executed round. -/
structure RoundInfo where
  genCases : Nat             -- |context['all_cases']| when generate_prompt ran
  status : ProgressStatus    -- this round's progress classification
  stagAfter : Nat            -- stagnation_count after the update
  deadSampleSize : Option Nat  -- the `all_cases_used` written at line 227-228
  evalAttempted : Nat        -- cases iterated by the evaluation loop
  evalScored : Nat           -- `total_files`
  avg : ℚ                    -- `avg_overlap`
deriving DecidableEq

/-- The loop's mutable state. -/
structure LoopState where
  best_prompt : PyStr
  best_avg_overlap : ℚ
  stagnation_count : Nat
  opt : OptState
deriving DecidableEq

/-- One case of the evaluation loop (`main.py`, 250-284): `none` models the
`TypeError` raised by `overlap_result['score']` when `calculate_overlap`
returned the bare float; the `except` clause then skips the case. -/
def eval_case (svc : Services) (prompt : PyStr) (c : CaseData) : Option ℚ :=
  match calculate_overlap
      (process_input_data (.arr ((predict_diseases svc prompt
        (c.input_data.getD Json.null)).map .str)))
      (process_input_data (c.gt_data.getD Json.null)) with
  | .record score _ _ _ => some score
  | .bare _ => none

/-- `avg_overlap = total_overlap / total_files if total_files > 0 else 0`
(`main.py`, 286), over the per-case scores that survived scoring. -/
def roundAvg (scored : List ℚ) : ℚ :=
  if 0 < scored.length then qDivNat (scored.foldl qAdd 0) scored.length else 0

/-- The strict-improvement update of the best score (`main.py`, 290-292). -/
def roundBest (best avg : ℚ) : ℚ := if best < avg then avg else best

/-- The strict-improvement update of the best prompt (`main.py`, 293). -/
def roundPrompt (best avg : ℚ) (new_prompt old_prompt : PyStr) : PyStr :=
  if best < avg then new_prompt else old_prompt

/-- The two break conditions of a round (`main.py`, 301-303 and 319-322):
a perfect score reached through a strict improvement, or the stagnation
counter at its cap. -/
def roundStop (best avg : ℚ) (stag : Nat) : Option Cause :=
  if best < avg ∧ avg = 1 then some .perfect
  else if 5 ≤ stag then some .stagnation
  else none

/-- One round of the loop, round index `i` (0-based).  Returns the next
state, the round's trace entry, and `some cause` when the round breaks. -/
def run_round (svc : Services) (all_cases : List CaseData) (i : Nat)
    (st : LoopState) : LoopState × RoundInfo × Option Cause :=
  let ctx : GenContext :=
    { iteration := some (i + 1), base_prompt := some st.best_prompt,
      all_cases := some (all_cases.take 3),
      previous_results := some (st.best_avg_overlap, i) }
  let gen := generate_prompt svc ctx st.opt
  let opt' := gen.1
  let new_prompt := gen.2
  let progress := evaluate_optimization_progress opt'
  let stag' := if progress = .stagnating then st.stagnation_count + 1 else 0
  -- lines 224-229: the computed sample size is written into the context
  -- dict, which has already been consumed; nothing downstream reads it.
  let dead : Option Nat :=
    if progress = .stagnating ∧ 3 ≤ stag' then
      some (min all_cases.length (3 + stag'))
    else none
  let scored := (all_cases.map (eval_case svc new_prompt)).reduceOption
  let avg_overlap := roundAvg scored
  (⟨roundPrompt st.best_avg_overlap avg_overlap new_prompt st.best_prompt,
    roundBest st.best_avg_overlap avg_overlap, stag', opt'⟩,
   ⟨(all_cases.take 3).length, progress, stag', dead, all_cases.length,
    scored.length, avg_overlap⟩,
   roundStop st.best_avg_overlap avg_overlap stag')

/-- Run the remaining rounds. -/
def run_loop (svc : Services) (all_cases : List CaseData) :
    List Nat → LoopState → LoopState × List RoundInfo × Cause
  | [], st => (st, [], .maxRounds)
  | i :: rest, st =>
    let step := run_round svc all_cases i st
    match step.2.2 with
    | some c => (step.1, [step.2.1], c)
    | none =>
      let next := run_loop svc all_cases rest step.1
      (next.1, step.2.1 :: next.2.1, next.2.2)

/-- The outcome of a whole run. -/
structure RunResult where
  final : LoopState
  trace : List RoundInfo
  cause : Cause

def max_iterations : Nat := 10

/-- The whole optimization loop of `main` over the loaded cases. -/
def run_optimization (svc : Services) (all_cases : List CaseData) : RunResult :=
  let init : LoopState := ⟨base_prompt_template, 0, 0, ⟨0, []⟩⟩
  let r := run_loop svc all_cases (List.range max_iterations) init
  ⟨r.1, r.2.1, r.2.2⟩

/-! ## Concrete fixtures used by witnesses and counterexamples -/

/-- A minimal candidate prompt that passes the skeleton validation. -/
def tinyPrompt : PyStr :=
  ("【任务说明】x【重要规则】y【输出要求】z【输出格式】w").toList

example : containsAllMarkers tinyPrompt = true := by decide

example : (tinyPrompt.splitOn '【').length = 5 := by decide

/-- A service bundle whose optimizer returns `tinyPrompt` and whose
predictor returns no content at all. -/
def svcEmptyPred : Services :=
  ⟨fun _ => tinyPrompt, fun _ => ['x'], fun _ _ => []⟩

/-- A complete stub case `n` with one ground-truth disease. -/
def caseStub (n : Nat) : CaseData :=
  ⟨some [Char.ofNat (48 + n)], some Json.null,
   some (Json.obj [(diseasesKey, Json.arr [Json.str ['x']])])⟩

def casesSeven : List CaseData :=
  [caseStub 1, caseStub 2, caseStub 3, caseStub 4, caseStub 5, caseStub 6,
   caseStub 7]

/-- The loop state `main` starts from. -/
def initLoopState : LoopState := ⟨base_prompt_template, 0, 0, ⟨0, []⟩⟩

/-! ## Helper lemmas -/

theorem normSet_nil : normSet [] = ∅ := rfl

/-- `overlapScore` in closed form. -/
theorem overlapScore_def (A B : List PyStr) :
    overlapScore A B =
      if A.isEmpty || B.isEmpty then 0
      else if normSet A = ∅ ∨ normSet B = ∅ then 0
      else mkRat ((normSet A ∩ normSet B).card : Int)
        ((normSet A ∪ normSet B).card) := by
  unfold overlapScore calculate_overlap
  by_cases h1 : A.isEmpty || B.isEmpty
  · simp [h1]
  · by_cases h2 : normSet A = ∅ ∨ normSet B = ∅
    · simp [h1, h2]
    · simp [h1, h2]

theorem interCard_le_unionCard (S T : Finset PyStr) :
    (S ∩ T).card ≤ (S ∪ T).card :=
  Finset.card_le_card (Finset.inter_subset_left.trans Finset.subset_union_left)

/-! ## Claim theorems -/

/-- Claim C3: a candidate prompt from the optimizer service that misses one
of the four section markers, or does not split into exactly five parts on
the `'【'` delimiter, is rejected: `DeepSeekAPI.generate_prompt` returns the
context's base prompt instead, and (being an ordinary return, not a raise)
the round proceeds with it. -/
theorem c3_skeleton_validation (content base_prompt : PyStr)
    (h : containsAllMarkers content = false ∨
      (content.splitOn '【').length ≠ 5) :
    validate_candidate content base_prompt = base_prompt := by
  unfold validate_candidate
  rcases h with h | h
  · simp [h]
  · split
    · rfl
    · simp [h]

theorem c3_skeleton_validation_witness :
    validate_candidate ['x'] base_prompt_template = base_prompt_template :=
  c3_skeleton_validation _ _ (Or.inl (by decide))

/-- Claim C7 (counterexample): over raw label *lists* the claim fails.
`[""]` equals itself and is a non-empty list, yet its overlap score is `0`
(its normalized set is empty); and the raw-disjoint lists `["a."]`/`["a"]`
score `1`, because normalization identifies their elements. -/
theorem c7_counterexample :
    overlapScore [[]] [[]] = 0 ∧ ([[]] : List PyStr) ≠ [] ∧ (0 : ℚ) ≠ 1 ∧
    (([['a', '.']] : List PyStr).all
      (fun x => !(([['a']] : List PyStr).contains x))) = true ∧
    overlapScore [['a', '.']] [['a']] = 1 :=
  ⟨by decide, by decide, by decide, by decide, by decide⟩

/-- Claim C7 (amended): the overlap score is symmetric, lies in `[0, 1]`,
equals `1` when the two lists have equal non-empty *normalized* sets,
equals `0` when either list is empty, either normalized set is empty, or
the normalized sets are disjoint; and whenever the record (hence the
division) is produced, the divisor — the union's size — is positive. -/
theorem c7_overlap_amended (A B : List PyStr) :
    overlapScore A B = overlapScore B A ∧
    0 ≤ overlapScore A B ∧ overlapScore A B ≤ 1 ∧
    (normSet A = normSet B → normSet A ≠ ∅ → overlapScore A B = 1) ∧
    ((A = [] ∨ B = [] ∨ normSet A = ∅ ∨ normSet B = ∅ ∨
        normSet A ∩ normSet B = ∅) → overlapScore A B = 0) ∧
    (∀ s o m e, calculate_overlap A B = .record s o m e →
        0 < (normSet A ∪ normSet B).card) := by
  have hcomm : overlapScore A B = overlapScore B A := by
    rw [overlapScore_def, overlapScore_def]
    refine if_congr (by rw [Bool.or_comm]) rfl (if_congr or_comm rfl ?_)
    rw [Finset.inter_comm, Finset.union_comm]
  have hpos : ∀ S T : Finset PyStr, ¬(S = ∅ ∨ T = ∅) → 0 < (S ∪ T).card := by
    intro S T h
    push_neg at h
    rcases Finset.nonempty_iff_ne_empty.2 h.1 with ⟨x, hx⟩
    exact Finset.card_pos.2 ⟨x, Finset.mem_union_left _ hx⟩
  refine ⟨hcomm, ?_, ?_, ?_, ?_, ?_⟩
  · rw [overlapScore_def]
    split
    · norm_num
    · split
      · norm_num
      · rw [mkRat_eq_div']
        positivity
  · rw [overlapScore_def]
    split
    · norm_num
    · split
      · norm_num
      · rename_i h1 h2
        rw [mkRat_eq_div']
        rw [div_le_one (by exact_mod_cast hpos _ _ h2)]
        exact_mod_cast interCard_le_unionCard _ _
  · intro hST hS
    have hA : ¬A.isEmpty := by
      intro h
      rw [List.isEmpty_iff] at h
      exact hS (h ▸ normSet_nil)
    have hB : ¬B.isEmpty := by
      intro h
      rw [List.isEmpty_iff] at h
      rw [hST, h, normSet_nil] at hS
      exact hS rfl
    rw [overlapScore_def, if_neg (by simp [hA, hB]),
      if_neg (by rw [← hST]; simp [hS]), hST, Finset.inter_self,
      Finset.union_self, mkRat_eq_div']
    have : ((normSet B).card : ℚ) ≠ 0 := by
      have hne : normSet B ≠ ∅ := hST ▸ hS
      exact_mod_cast
        Finset.card_ne_zero.2 (Finset.nonempty_iff_ne_empty.2 hne)
    exact div_self this
  · intro h
    rw [overlapScore_def]
    rcases h with h | h | h | h | h
    · simp [h]
    · simp [h]
    · by_cases h1 : A.isEmpty || B.isEmpty
      · simp [h1]
      · simp [h1, h]
    · by_cases h1 : A.isEmpty || B.isEmpty
      · simp [h1]
      · simp [h1, h]
    · by_cases h1 : A.isEmpty || B.isEmpty
      · simp [h1]
      · by_cases h2 : normSet A = ∅ ∨ normSet B = ∅
        · simp [h1, h2]
        · rw [if_neg h1, if_neg h2, h, mkRat_eq_div']
          simp
  · intro s o m e hrec
    unfold calculate_overlap at hrec
    split at hrec
    · exact absurd hrec (by simp)
    · split at hrec
      · exact absurd hrec (by simp)
      · rename_i h2
        exact hpos _ _ h2

theorem c7_overlap_amended_witness :
    overlapScore [['a']] [['a']] = 1 :=
  (c7_overlap_amended [['a']] [['a']]).2.2.2.1 rfl (by decide)

/-- Claim C8 (counterexample): for `pred = truth = []` the normalized sets
are equal, yet accuracy and precision are both `0`, not `1`; so the claimed
equivalence fails in the empty case. -/
theorem c8_counterexample :
    normSet [] = normSet [] ∧
    (analyze_differences [] []).accuracy = 0 ∧
    (analyze_differences [] []).precision = 0 ∧ ((0 : ℚ) ≠ 1) :=
  ⟨rfl, by decide, by decide, by decide⟩

/-- Claim C8 (amended): `accuracy == 1 ∧ precision == 1` iff the normalized
sets of `pred` and `truth` are equal *and non-empty*; and in all cases the
two fields equal `|correct| / max(|truth|, 1)` and
`|correct| / max(|pred|, 1)` respectively. -/
theorem c8_accuracy_amended (predicted ground_truth : List PyStr) :
    ((analyze_differences predicted ground_truth).accuracy = 1 ∧
      (analyze_differences predicted ground_truth).precision = 1 ↔
      (normSet predicted = normSet ground_truth ∧
        normSet ground_truth ≠ ∅)) ∧
    (analyze_differences predicted ground_truth).accuracy =
      ((normSet predicted ∩ normSet ground_truth).card : ℚ) /
        ((max (normSet ground_truth).card 1 : Nat) : ℚ) ∧
    (analyze_differences predicted ground_truth).precision =
      ((normSet predicted ∩ normSet ground_truth).card : ℚ) /
        ((max (normSet predicted).card 1 : Nat) : ℚ) := by
  set P := normSet predicted with hP
  set T := normSet ground_truth with hT
  have hacc : (analyze_differences predicted ground_truth).accuracy =
      if T = ∅ then 0 else mkRat ((P ∩ T).card : Int) (max T.card 1) := rfl
  have hprec : (analyze_differences predicted ground_truth).precision =
      if P = ∅ then 0 else mkRat ((P ∩ T).card : Int) (max P.card 1) := rfl
  have hformA : (analyze_differences predicted ground_truth).accuracy =
      ((P ∩ T).card : ℚ) / ((max T.card 1 : Nat) : ℚ) := by
    rw [hacc]
    split
    · rename_i h
      simp [h]
    · rw [mkRat_eq_div', Int.cast_natCast]
  have hformP : (analyze_differences predicted ground_truth).precision =
      ((P ∩ T).card : ℚ) / ((max P.card 1 : Nat) : ℚ) := by
    rw [hprec]
    split
    · rename_i h
      simp [h]
    · rw [mkRat_eq_div', Int.cast_natCast]
  refine ⟨⟨?_, ?_⟩, hformA, hformP⟩
  · rintro ⟨h1, h2⟩
    have hTne : T ≠ ∅ := by
      intro h
      rw [hacc, if_pos h] at h1
      exact absurd h1 (by norm_num)
    have hPne : P ≠ ∅ := by
      intro h
      rw [hprec, if_pos h] at h2
      exact absurd h2 (by norm_num)
    have hTpos : 0 < T.card := Finset.card_pos.2 (Finset.nonempty_iff_ne_empty.2 hTne)
    have hPpos : 0 < P.card := Finset.card_pos.2 (Finset.nonempty_iff_ne_empty.2 hPne)
    rw [hacc, if_neg hTne, mkRat_eq_div', Nat.max_eq_left hTpos] at h1
    rw [hprec, if_neg hPne, mkRat_eq_div', Nat.max_eq_left hPpos] at h2
    have hcT : ((T.card : ℚ)) ≠ 0 := by exact_mod_cast hTpos.ne'
    have hcP : ((P.card : ℚ)) ≠ 0 := by exact_mod_cast hPpos.ne'
    rw [div_eq_one_iff_eq hcT] at h1
    rw [div_eq_one_iff_eq hcP] at h2
    have hT1 : (P ∩ T).card = T.card := by exact_mod_cast h1
    have hP1 : (P ∩ T).card = P.card := by exact_mod_cast h2
    have hsubT : T ⊆ P := by
      have := Finset.eq_of_subset_of_card_le Finset.inter_subset_right
        (le_of_eq hT1.symm)
      intro x hx
      rw [← this] at hx
      exact Finset.mem_of_mem_inter_left hx
    have hsubP : P ⊆ T := by
      have := Finset.eq_of_subset_of_card_le Finset.inter_subset_left
        (le_of_eq hP1.symm)
      intro x hx
      rw [← this] at hx
      exact Finset.mem_of_mem_inter_right hx
    exact ⟨Finset.Subset.antisymm hsubP hsubT, hTne⟩
  · rintro ⟨heq, hne⟩
    have hTpos : 0 < T.card := Finset.card_pos.2 (Finset.nonempty_iff_ne_empty.2 hne)
    have hPne : P ≠ ∅ := heq ▸ hne
    have hPpos : 0 < P.card := Finset.card_pos.2 (Finset.nonempty_iff_ne_empty.2 hPne)
    have hcT : ((T.card : ℚ)) ≠ 0 := by exact_mod_cast hTpos.ne'
    have hcP : ((P.card : ℚ)) ≠ 0 := by exact_mod_cast hPpos.ne'
    constructor
    · rw [hacc, if_neg hne, mkRat_eq_div', Nat.max_eq_left hTpos, heq,
        Finset.inter_self]
      exact div_self hcT
    · rw [hprec, if_neg hPne, mkRat_eq_div', Nat.max_eq_left hPpos, heq,
        Finset.inter_self, ← heq]
      exact div_self hcP

/-- Claim C9: `calculate_overlap` returns the bare float `0.0` exactly when
either input list is empty or normalizes to the empty set, and a record
otherwise; and at the call site, a bare result makes `eval_case` skip the
case (the `['score']` subscript raises, the `except` continues), so such
cases are excluded from the round's mean rather than contributing `0`. -/
theorem c9_bare_overlap :
    (∀ pred gt : List PyStr,
      (calculate_overlap pred gt = .bare 0 ↔
        (pred = [] ∨ gt = [] ∨ normSet pred = ∅ ∨ normSet gt = ∅)) ∧
      (¬(pred = [] ∨ gt = [] ∨ normSet pred = ∅ ∨ normSet gt = ∅) →
        ∃ s o m e, calculate_overlap pred gt = .record s o m e)) ∧
    (∀ svc prompt c x,
      calculate_overlap
          (process_input_data (.arr ((predict_diseases svc prompt
            (c.input_data.getD .null)).map .str)))
          (process_input_data (c.gt_data.getD .null)) = .bare x →
      eval_case svc prompt c = none) := by
  constructor
  · intro pred gt
    constructor
    · constructor
      · intro h
        by_contra hcon
        push_neg at hcon
        obtain ⟨h1, h2, h3, h4⟩ := hcon
        unfold calculate_overlap at h
        rw [if_neg (by simp [h1, h2]), if_neg (by simp [h3, h4])] at h
        exact absurd h (by simp)
      · intro h
        unfold calculate_overlap
        rcases h with h | h | h | h
        · simp [h]
        · simp [h]
        · by_cases h1 : pred.isEmpty || gt.isEmpty
          · simp [h1]
          · simp [h1, h]
        · by_cases h1 : pred.isEmpty || gt.isEmpty
          · simp [h1]
          · simp [h1, h]
    · intro h
      push_neg at h
      obtain ⟨h1, h2, h3, h4⟩ := h
      unfold calculate_overlap
      rw [if_neg (by simp [h1, h2]), if_neg (by simp [h3, h4])]
      exact ⟨_, _, _, _, rfl⟩
  · intro svc prompt c x h
    unfold eval_case
    rw [h]

theorem c9_bare_overlap_witness :
    calculate_overlap [] [] = .bare 0 :=
  (c9_bare_overlap.1 [] []).1.mpr (Or.inl rfl)

/-! ## C4 helpers: last-elements decompositions -/

theorem getD_append_pair (u : List ℚ) (a b : ℚ) :
    (u ++ [a, b]).getD u.length 0 = a ∧
      (u ++ [a, b]).getD (u.length + 1) 0 = b := by
  induction u with
  | nil => exact ⟨rfl, rfl⟩
  | cons x u ih => simpa using ih

theorem getD_append_triple (u : List ℚ) (a b c : ℚ) :
    (u ++ [a, b, c]).getD u.length 0 = a ∧
      (u ++ [a, b, c]).getD (u.length + 1) 0 = b ∧
      (u ++ [a, b, c]).getD (u.length + 2) 0 = c := by
  induction u with
  | nil => exact ⟨rfl, rfl, rfl⟩
  | cons x u ih => simpa using ih

theorem exists_last_two {t : List ℚ} (h : 2 ≤ t.length) :
    ∃ u a b, t = u ++ [a, b] := by
  rcases ht : t.reverse with _ | ⟨b, _ | ⟨a, r⟩⟩
  · rw [← t.length_reverse, ht] at h
    simp at h
  · rw [← t.length_reverse, ht] at h
    simp at h
  · exact ⟨r.reverse, a, b, by rw [← t.reverse_reverse, ht]; simp⟩

theorem exists_last_three {t : List ℚ} (h : 3 ≤ t.length) :
    ∃ u a b c, t = u ++ [a, b, c] := by
  rcases ht : t.reverse with _ | ⟨c, _ | ⟨b, _ | ⟨a, r⟩⟩⟩
  · rw [← t.length_reverse, ht] at h
    simp at h
  · rw [← t.length_reverse, ht] at h
    simp at h
  · rw [← t.length_reverse, ht] at h
    simp at h
  · exact ⟨r.reverse, a, b, c, by rw [← t.reverse_reverse, ht]; simp⟩

/-- The hundredth used as the stagnation epsilon. -/
theorem mkRat_one_hundred : mkRat 1 100 = (1 : ℚ) / 100 := by
  rw [mkRat_eq_div']
  norm_num

theorem trendImprovingB_iff (t : List ℚ) :
    trendImprovingB t = true ↔ ∃ u a b, t = u ++ [a, b] ∧ a < b := by
  unfold trendImprovingB
  simp only [Bool.and_eq_true, decide_eq_true_eq]
  constructor
  · rintro ⟨h2, hlt⟩
    obtain ⟨u, a, b, rfl⟩ := exists_last_two h2
    refine ⟨u, a, b, rfl, ?_⟩
    have hl : (u ++ [a, b]).length = u.length + 2 := by simp
    rw [hl, show u.length + 2 - 2 = u.length from by omega,
      show u.length + 2 - 1 = u.length + 1 from by omega,
      (getD_append_pair u a b).1, (getD_append_pair u a b).2] at hlt
    exact hlt
  · rintro ⟨u, a, b, rfl, hab⟩
    have hl : (u ++ [a, b]).length = u.length + 2 := by simp
    refine ⟨by omega, ?_⟩
    rw [hl, show u.length + 2 - 2 = u.length from by omega,
      show u.length + 2 - 1 = u.length + 1 from by omega,
      (getD_append_pair u a b).1, (getD_append_pair u a b).2]
    exact hab

theorem trendStagnatingB_iff (t : List ℚ) :
    trendStagnatingB t = true ↔
      ∃ u a b c, t = u ++ [a, b, c] ∧
        |c - b| < 1 / 100 ∧ |b - a| < 1 / 100 := by
  unfold trendStagnatingB
  simp only [Bool.and_eq_true, decide_eq_true_eq, qAbs_eq, qSub_eq,
    mkRat_one_hundred]
  constructor
  · rintro ⟨⟨h3, hd1⟩, hd2⟩
    obtain ⟨u, a, b, c, rfl⟩ := exists_last_three h3
    have e0 : (u ++ [a, b, c]).length = u.length + 3 := by simp
    have e1 : u.length + 3 - 1 = u.length + 2 := by omega
    have e2 : u.length + 3 - 2 = u.length + 1 := by omega
    have e3 : u.length + 3 - 3 = u.length := by omega
    simp only [e0, e1, e2, e3, (getD_append_triple u a b c).1,
      (getD_append_triple u a b c).2.1,
      (getD_append_triple u a b c).2.2] at hd1 hd2
    exact ⟨u, a, b, c, rfl, hd1, hd2⟩
  · rintro ⟨u, a, b, c, rfl, hd1, hd2⟩
    have e0 : (u ++ [a, b, c]).length = u.length + 3 := by simp
    have e1 : u.length + 3 - 1 = u.length + 2 := by omega
    have e2 : u.length + 3 - 2 = u.length + 1 := by omega
    have e3 : u.length + 3 - 3 = u.length := by omega
    refine ⟨⟨by rw [e0]; omega, ?_⟩, ?_⟩
    · simp only [e0, e1, e2, e3, (getD_append_triple u a b c).1,
        (getD_append_triple u a b c).2.1, (getD_append_triple u a b c).2.2]
      exact hd1
    · simp only [e0, e1, e2, e3, (getD_append_triple u a b c).1,
        (getD_append_triple u a b c).2.1, (getD_append_triple u a b c).2.2]
      exact hd2

/-- Claim C4: progress classification over the accuracy trend.
`[0.50, 0.50, 0.50]` is `stagnating`, `[0.30, 0.50]` is `improving`,
`[0.90, 0.20]` is `unstable`; in general `improving` iff the last value
strictly exceeds the previous one, `stagnating` iff at least three points
exist, the two most recent consecutive deltas are each below `0.01` in
absolute value, and it is not improving; otherwise `unstable`. -/
theorem c4_trend_classification :
    classifyTrend [mkRat 1 2, mkRat 1 2, mkRat 1 2] = .stagnating ∧
    classifyTrend [mkRat 3 10, mkRat 1 2] = .improving ∧
    classifyTrend [mkRat 9 10, mkRat 1 5] = .unstable ∧
    (∀ t : List ℚ, classifyTrend t = .improving ↔
      ∃ u a b, t = u ++ [a, b] ∧ a < b) ∧
    (∀ t : List ℚ, classifyTrend t = .stagnating ↔
      (¬∃ u a b, t = u ++ [a, b] ∧ a < b) ∧
      ∃ u a b c, t = u ++ [a, b, c] ∧
        |c - b| < 1 / 100 ∧ |b - a| < 1 / 100) ∧
    (∀ t : List ℚ, classifyTrend t = .unstable ↔
      (¬∃ u a b, t = u ++ [a, b] ∧ a < b) ∧
      ¬∃ u a b c, t = u ++ [a, b, c] ∧
        |c - b| < 1 / 100 ∧ |b - a| < 1 / 100) := by
  have hcl : ∀ t : List ℚ,
      (classifyTrend t = .improving ↔ trendImprovingB t = true) ∧
      (classifyTrend t = .stagnating ↔
        trendImprovingB t = false ∧ trendStagnatingB t = true) ∧
      (classifyTrend t = .unstable ↔
        trendImprovingB t = false ∧ trendStagnatingB t = false) := by
    intro t
    unfold classifyTrend
    by_cases h1 : trendImprovingB t <;> by_cases h2 : trendStagnatingB t <;>
      simp [h1, h2]
  refine ⟨by decide, by decide, by decide, ?_, ?_, ?_⟩
  · intro t
    rw [(hcl t).1, trendImprovingB_iff]
  · intro t
    rw [(hcl t).2.1, ← trendImprovingB_iff, ← trendStagnatingB_iff]
    simp [Bool.not_eq_true]
  · intro t
    rw [(hcl t).2.2, ← trendImprovingB_iff, ← trendStagnatingB_iff]
    simp [Bool.not_eq_true]

/-- Claim C5 (counterexample): on `{"diseases": "   "}` the parser takes
the single-string branch and returns `[""]` — a returned string that is
empty after trimming, contradicting the claimed output invariant. -/
theorem c5_counterexample :
    extract_diseases_from_response "\x7b\"diseases\": \"   \"\x7d".toList
        = [[]] ∧
    [] ∈ extract_diseases_from_response "\x7b\"diseases\": \"   \"\x7d".toList ∧
    pyTrim ([] : PyStr) = [] :=
  ⟨rfl, by decide, rfl⟩

/-- Claim C5 (amended): `extract_diseases_from_response` is total (it is a
Lean function); on parse failure it returns `[]`; when the parsed object
carries an `error` field it returns `[]`; every returned string is already
trimmed; and a returned string can be empty only via the degenerate branch
where the `diseases` field holds a single truthy non-list value. -/
theorem c5_parser_amended (r : PyStr) :
    (jsonParse (stripFences r) = none →
      extract_diseases_from_response r = []) ∧
    (∀ fields, jsonParse (stripFences r) = some (.obj fields) →
      objHasKey fields errorKey = true →
      extract_diseases_from_response r = []) ∧
    (∀ x ∈ extract_diseases_from_response r, pyTrim x = x) ∧
    (∀ x ∈ extract_diseases_from_response r, x = [] →
      ∃ fields d, jsonParse (stripFences r) = some (.obj fields) ∧
        objGet fields diseasesKey = some d ∧ (∀ ds, d ≠ .arr ds) ∧
        pyTruthy d = true) := by
  have hdef : extract_diseases_from_response r =
      match jsonParse (stripFences r) with
      | none => []
      | some result =>
        match result with
        | .obj fields =>
          if objHasKey fields errorKey then []
          else
            match objGet fields diseasesKey with
            | some (.arr ds) =>
              (ds.filter (fun d => pyTruthy d &&
                !(pyTrim (pyToStr d)).isEmpty)).map
                (fun d => pyTrim (pyToStr d))
            | some d => if pyTruthy d then [pyTrim (pyToStr d)] else []
            | none => []
        | _ => [] := rfl
  cases hj : jsonParse (stripFences r) with
  | none =>
    rw [hdef]
    simp [hj]
  | some v =>
    refine ⟨fun h => absurd h (by simp), ?_, ?_, ?_⟩
    · intro fields hf herr
      cases Option.some.inj hf
      rw [hdef]
      simp [hj, herr]
    · intro x hx
      rw [hdef] at hx
      simp only [hj] at hx
      cases v with
      | obj fields =>
        by_cases herr : objHasKey fields errorKey
        · simp [herr] at hx
        · simp only [herr, if_false, Bool.false_eq_true] at hx
          cases hd : objGet fields diseasesKey with
          | none => simp [hd] at hx
          | some d =>
            cases d with
            | arr ds =>
              simp only [hd] at hx
              obtain ⟨y, hy, rfl⟩ := List.mem_map.1 hx
              exact pyTrim_idem _
            | null => simp [hd, pyTruthy] at hx
            | bool b =>
              simp only [hd] at hx
              split at hx <;> simp at hx
              · rw [hx]; exact pyTrim_idem _
            | num i =>
              simp only [hd] at hx
              split at hx <;> simp at hx
              · rw [hx]; exact pyTrim_idem _
            | str s =>
              simp only [hd] at hx
              split at hx <;> simp at hx
              · rw [hx]; exact pyTrim_idem _
            | obj kvs =>
              simp only [hd] at hx
              split at hx <;> simp at hx
              · rw [hx]; exact pyTrim_idem _
      | null => simp at hx
      | bool b => simp at hx
      | num i => simp at hx
      | str s => simp at hx
      | arr l => simp at hx
    · intro x hx hxe
      rw [hdef] at hx
      simp only [hj] at hx
      cases v with
      | obj fields =>
        by_cases herr : objHasKey fields errorKey
        · simp [herr] at hx
        · simp only [herr, if_false, Bool.false_eq_true] at hx
          cases hd : objGet fields diseasesKey with
          | none => simp [hd] at hx
          | some d =>
            cases d with
            | arr ds =>
              simp only [hd] at hx
              obtain ⟨y, hy, hxy⟩ := List.mem_map.1 hx
              obtain ⟨hy1, hy2⟩ := List.mem_filter.1 hy
              rw [Bool.and_eq_true] at hy2
              rw [hxe] at hxy
              rw [hxy] at hy2
              simp at hy2
            | null => simp [hd, pyTruthy] at hx
            | bool b =>
              simp only [hd] at hx
              split at hx <;> simp at hx
              · exact ⟨fields, .bool b, rfl, hd, (fun ds h => by cases h), (by assumption)⟩
            | num i =>
              simp only [hd] at hx
              split at hx <;> simp at hx
              · exact ⟨fields, .num i, rfl, hd, (fun ds h => by cases h), (by assumption)⟩
            | str s =>
              simp only [hd] at hx
              split at hx <;> simp at hx
              · exact ⟨fields, .str s, rfl, hd, (fun ds h => by cases h), (by assumption)⟩
            | obj kvs =>
              simp only [hd] at hx
              split at hx <;> simp at hx
              · exact ⟨fields, .obj kvs, rfl, hd, (fun ds h => by cases h), (by assumption)⟩
      | null => simp at hx
      | bool b => simp at hx
      | num i => simp at hx
      | str s => simp at hx
      | arr l => simp at hx

theorem c5_parser_amended_witness :
    extract_diseases_from_response "xx".toList = [] :=
  (c5_parser_amended "xx".toList).1 rfl

/-! ## C6 helpers -/

theorem parseVal_backtick (fuel : Nat) (u : PyStr) :
    parseVal (fuel + 1) ('`' :: u) = none := rfl

theorem jsonParse_head_backtick {s : PyStr} {u : PyStr}
    (h : pyTrim s = '`' :: u) : jsonParse s = none := by
  unfold jsonParse
  rw [h, show ('`' :: u).length + 1 = (u.length + 1) + 1 from rfl,
    parseVal_backtick]

theorem three_backticks_head {t : PyStr}
    (h : ("```".toList).isPrefixOf t = true) : ∃ u, t = '`' :: u := by
  cases t with
  | nil => exact absurd h (by decide)
  | cons c t1 =>
    have hh : ("```".toList).isPrefixOf (c :: t1) =
        (('`' == c) && (['`', '`'].isPrefixOf t1)) := rfl
    rw [hh, Bool.and_eq_true, beq_iff_eq] at h
    exact ⟨t1, by rw [← h.1]⟩

/-- If the fence-stripped text does not parse, neither does the raw text:
either there is no fence (and `json.loads` ignores the surrounding
whitespace), or the text starts with a backtick and cannot parse at all. -/
theorem jsonParse_raw_of_stripped_none {content : PyStr}
    (h : jsonParse (stripFences content) = none) :
    jsonParse content = none := by
  by_cases hp : ("```".toList).isPrefixOf (pyTrim content) = true
  · obtain ⟨u, hu⟩ := three_backticks_head hp
    rw [← jsonParse_pyTrim]
    exact jsonParse_head_backtick (by rw [pyTrim_idem, hu])
  · have hs : stripFences content = pyTrim content := by
      unfold stripFences
      rw [if_neg hp]
    rw [hs] at h
    rw [← jsonParse_pyTrim]
    exact h

/-! ## Claim C6 -/

/-- The first (invalid-JSON) shape match of the C6 counterexample text. -/
def s1C6 : PyStr := "\x7b2\"diseases\":[3]\x7d".toList

/-- The second, strictly shorter, valid shape match. -/
def s2C6 : PyStr := "\x7b\"diseases\":[1]\x7d".toList

/-- A response containing two shape matches; the leftmost is longer and is
not valid JSON, the rightmost is shorter and valid. -/
def cC6 : PyStr := s1C6 ++ s2C6

/-- Claim C6 (counterexample): on `cC6` the direct parse fails and the code
parses the *leftmost* pattern match `s1C6` (which fails, yielding the empty
payload), although the *smallest* substring of the shape is `s2C6`, whose
parse would yield the payload `{"diseases": ["1"]}`.  So the scan does not
pick the smallest substring of the shape. -/
theorem c6_counterexample :
    jsonParse (stripFences cC6) = none ∧
    firstShapeMatch cC6 = some s1C6 ∧
    qwenClean cC6 = emptyDiseasesJson ∧
    isShapeStr s2C6 = true ∧
    containsSub s2C6 cC6 = true ∧
    s2C6.length < s1C6.length ∧
    ((shapeInfixes cC6).all (fun m => s2C6.length ≤ m.length)) = true ∧
    (match jsonParse s2C6 with
     | some v => qwenStandardize v
     | none => emptyDiseasesJson) = dumpsDiseases [['1']] ∧
    dumpsDiseases [['1']] ≠ emptyDiseasesJson :=
  ⟨rfl, by decide, rfl, by decide, by decide, by decide, by decide, rfl,
   by decide⟩

/-- Claim C6 (amended): whenever the direct structured parse of the
fence-stripped response fails, `QwenAPI.predict`'s cleaning scans the raw
text for the *first* (leftmost, greedy) substring matching
`{[^{}]*"diseases"\s*:\s*\[[^\]]*\][^{}]*\}` and attempts to parse that
substring, falling back to the empty payload if the scan or its parse
fails. -/
theorem c6_scan_amended (content : PyStr)
    (h : jsonParse (stripFences content) = none) :
    qwenClean content =
      (match firstShapeMatch content with
       | some m =>
         match jsonParse m with
         | some v => qwenStandardize v
         | none => emptyDiseasesJson
       | none => emptyDiseasesJson) := by
  unfold qwenClean
  rw [jsonParse_raw_of_stripped_none h]

theorem c6_scan_amended_witness :
    qwenClean "xx".toList = emptyDiseasesJson :=
  (c6_scan_amended "xx".toList rfl).trans rfl

/-! ## Claim C10 -/

/-- Every outcome of the post-iteration body: either the history is
untouched and the base prompt is returned, or exactly one record is
appended and the validated optimizer output is returned. -/
theorem gpAfterIter_cases (svc : Services) (ctx : GenContext)
    (st1 : OptState) :
    ((gpAfterIter svc ctx st1).1.optimization_history =
        st1.optimization_history ∧
      (gpAfterIter svc ctx st1).2 =
        ctx.base_prompt.getD base_prompt_template) ∨
    (∃ rec0, (gpAfterIter svc ctx st1).1.optimization_history =
        st1.optimization_history ++ [rec0] ∧
      rec0.new_prompt = (gpAfterIter svc ctx st1).2 ∧
      rec0.analysis_results ≠ [] ∧
      containsSub marker_rules (gpAfterIter svc ctx st1).2 = true) := by
  unfold gpAfterIter
  split
  · exact Or.inl ⟨rfl, rfl⟩
  · split
    · exact Or.inl ⟨rfl, rfl⟩
    · rename_i optimized heq
      split
      · exact Or.inl ⟨rfl, rfl⟩
      · split
        · exact Or.inl ⟨rfl, rfl⟩
        · rename_i hrules
          split
          · exact Or.inl ⟨rfl, rfl⟩
          · rename_i r rs hres
            refine Or.inr ⟨_, rfl, rfl, by simp [mkIterationRecord], ?_⟩
            simpa using hrules

/-- Claim C10: `PromptOptimizer.generate_prompt` is atomic with respect to
the optimization history.  Dichotomy: either the history is unchanged and
the fallback prompt (the base-prompt template on an empty context, the
context's base prompt otherwise) is returned, or exactly one record —
carrying a non-empty `analysis_results` and the returned prompt — is
appended.  In particular: an empty context returns the template with the
state fully untouched; an empty case list, and a missing history on
iteration ≥ 2, each return the base prompt with the history untouched. -/
theorem c10_generate_atomic (svc : Services) (ctx : GenContext)
    (st : OptState) :
    (((generate_prompt svc ctx st).1.optimization_history =
        st.optimization_history ∧
      (generate_prompt svc ctx st).2 =
        (if ctxIsEmpty ctx then base_prompt_template
         else ctx.base_prompt.getD base_prompt_template)) ∨
     (∃ rec0, (generate_prompt svc ctx st).1.optimization_history =
        st.optimization_history ++ [rec0] ∧
      rec0.new_prompt = (generate_prompt svc ctx st).2 ∧
      rec0.analysis_results ≠ [] ∧
      containsSub marker_rules (generate_prompt svc ctx st).2 = true)) ∧
    (ctxIsEmpty ctx = true →
      generate_prompt svc ctx st = (st, base_prompt_template)) ∧
    (ctxIsEmpty ctx = false → (ctx.all_cases.getD []).isEmpty = true →
      (generate_prompt svc ctx st).1.optimization_history =
        st.optimization_history ∧
      (generate_prompt svc ctx st).2 =
        ctx.base_prompt.getD base_prompt_template) ∧
    (ctxIsEmpty ctx = false →
      ctx.iteration.getD (st.current_iteration + 1) ≠ 1 →
      st.optimization_history = [] →
      (generate_prompt svc ctx st).1.optimization_history =
        st.optimization_history ∧
      (generate_prompt svc ctx st).2 =
        ctx.base_prompt.getD base_prompt_template) := by
  by_cases hc : ctxIsEmpty ctx = true
  · have hg : generate_prompt svc ctx st = (st, base_prompt_template) := by
      unfold generate_prompt
      rw [if_pos hc]
    refine ⟨Or.inl ⟨by rw [hg], by rw [hg, if_pos hc]⟩, fun _ => hg,
      fun hf => absurd (hf ▸ hc) (by decide),
      fun hf _ _ => absurd (hf ▸ hc) (by decide)⟩
  · rw [Bool.not_eq_true] at hc
    have hg : generate_prompt svc ctx st = gpAfterIter svc ctx
        ⟨ctx.iteration.getD (st.current_iteration + 1),
         st.optimization_history⟩ := by
      unfold generate_prompt
      rw [if_neg (by rw [hc]; exact Bool.false_ne_true)]
    refine ⟨?_, fun ht => absurd (ht ▸ hc) (by decide), ?_, ?_⟩
    · rcases gpAfterIter_cases svc ctx
          ⟨ctx.iteration.getD (st.current_iteration + 1),
           st.optimization_history⟩ with h | ⟨rec0, h1, h2, h3, h4⟩
      · exact Or.inl ⟨by rw [hg]; exact h.1, by rw [hg, if_neg (by simp [hc])]; exact h.2⟩
      · exact Or.inr ⟨rec0, by rw [hg]; exact h1, by rw [hg]; exact h2, h3,
          by rw [hg]; exact h4⟩
    · intro _ hempty
      have : gpAfterIter svc ctx
          ⟨ctx.iteration.getD (st.current_iteration + 1),
           st.optimization_history⟩ =
          (⟨ctx.iteration.getD (st.current_iteration + 1),
            st.optimization_history⟩,
           ctx.base_prompt.getD base_prompt_template) := by
        unfold gpAfterIter
        rw [if_pos hempty]
      rw [hg, this]
      exact ⟨rfl, rfl⟩
    · intro _ hiter hhist
      have hcand : genCandidate svc (ctx.base_prompt.getD base_prompt_template)
          (ctx.iteration.getD (st.current_iteration + 1))
          st.optimization_history = none := by
        unfold genCandidate
        rw [if_neg hiter, hhist]
        rfl
      have : gpAfterIter svc ctx
          ⟨ctx.iteration.getD (st.current_iteration + 1),
           st.optimization_history⟩ =
          (⟨ctx.iteration.getD (st.current_iteration + 1),
            st.optimization_history⟩,
           ctx.base_prompt.getD base_prompt_template) := by
        unfold gpAfterIter
        split
        · rfl
        · rw [hcand]
      rw [hg, this]
      exact ⟨rfl, rfl⟩

theorem c10_generate_atomic_witness :
    generate_prompt svcEmptyPred ⟨none, none, none, none⟩ ⟨0, []⟩ =
      (⟨0, []⟩, base_prompt_template) :=
  (c10_generate_atomic svcEmptyPred ⟨none, none, none, none⟩ ⟨0, []⟩).2.1 rfl


/-! ## C2 helpers: facts about single rounds and the loop -/

theorem reduceOption_map_none {α β : Type} {l : List α} {f : α → Option β}
    (h : ∀ x, f x = none) : (l.map f).reduceOption = [] := by
  induction l with
  | nil => rfl
  | cons a l ih => simp [List.reduceOption, h, ih]

theorem roundStop_ne_max {b a : ℚ} {s : Nat} :
    roundStop b a s ≠ some .maxRounds := by
  unfold roundStop
  split_ifs <;> simp

theorem roundStop_perfect {b a : ℚ} {s : Nat}
    (h : roundStop b a s = some .perfect) : a = 1 := by
  unfold roundStop at h
  split_ifs at h with h1 h2
  · exact h1.2
  · simp at h

theorem roundStop_stag {b a : ℚ} {s : Nat}
    (h : roundStop b a s = some .stagnation) : 5 ≤ s := by
  unfold roundStop at h
  split_ifs at h with h1 h2
  · simp at h
  · exact h2

/-- `run_round` never reports the round-budget cause itself. -/
theorem run_round_stop_ne_max (svc : Services) (cases : List CaseData)
    (i : Nat) (st : LoopState) :
    (run_round svc cases i st).2.2 ≠ some .maxRounds := by
  simp only [run_round]
  exact roundStop_ne_max

/-- A `perfect` break implies the round's average was exactly `1`. -/
theorem run_round_stop_perfect (svc : Services) (cases : List CaseData)
    (i : Nat) (st : LoopState)
    (h : (run_round svc cases i st).2.2 = some .perfect) :
    (run_round svc cases i st).2.1.avg = 1 := by
  simp only [run_round] at h ⊢
  exact roundStop_perfect h

/-- A `stagnation` break implies the counter reached `5`. -/
theorem run_round_stop_stag (svc : Services) (cases : List CaseData)
    (i : Nat) (st : LoopState)
    (h : (run_round svc cases i st).2.2 = some .stagnation) :
    5 ≤ (run_round svc cases i st).1.stagnation_count := by
  simp only [run_round] at h ⊢
  exact roundStop_stag h

/-- With an always-empty predictor every case is skipped by `eval_case`. -/
theorem eval_case_none_of_emptyPred (svc : Services)
    (hp : ∀ p d, predict_diseases svc p d = []) (prompt : PyStr)
    (c : CaseData) : eval_case svc prompt c = none := by
  unfold eval_case
  rw [hp]
  rfl

/-- With an always-empty predictor a round leaves the best score at `0`
and the best prompt unchanged. -/
theorem run_round_emptyPred (svc : Services) (cases : List CaseData)
    (i : Nat) (st : LoopState)
    (hp : ∀ p d, predict_diseases svc p d = [])
    (h0 : st.best_avg_overlap = 0) :
    (run_round svc cases i st).1.best_avg_overlap = 0 ∧
      (run_round svc cases i st).1.best_prompt = st.best_prompt := by
  simp only [run_round]
  rw [reduceOption_map_none (fun c => eval_case_none_of_emptyPred svc hp _ c)]
  simp [roundAvg, roundBest, roundPrompt, h0]

theorem run_loop_cause_max (svc : Services) (cases : List CaseData) :
    ∀ (rounds : List Nat) (st : LoopState),
      (run_loop svc cases rounds st).2.2 = .maxRounds →
      (run_loop svc cases rounds st).2.1.length = rounds.length := by
  intro rounds
  induction rounds with
  | nil => intro st _; rfl
  | cons i rest ih =>
    intro st h
    simp only [run_loop] at h ⊢
    cases hstep : (run_round svc cases i st).2.2 with
    | some c =>
      rw [hstep] at h
      have hc : c = Cause.maxRounds := h
      subst hc
      exact absurd hstep (run_round_stop_ne_max svc cases i st)
    | none =>
      rw [hstep] at h
      have h' : (run_loop svc cases rest
          (run_round svc cases i st).1).2.2 = Cause.maxRounds := h
      have hlen := ih _ h'
      show ((run_round svc cases i st).2.1 ::
        (run_loop svc cases rest (run_round svc cases i st).1).2.1).length =
        rest.length + 1
      rw [List.length_cons, hlen]

theorem run_loop_cause_perfect (svc : Services) (cases : List CaseData) :
    ∀ (rounds : List Nat) (st : LoopState),
      (run_loop svc cases rounds st).2.2 = .perfect →
      ∃ info, (run_loop svc cases rounds st).2.1.getLast? = some info ∧
        info.avg = 1 := by
  intro rounds
  induction rounds with
  | nil => intro st h; simp [run_loop] at h
  | cons i rest ih =>
    intro st h
    simp only [run_loop] at h ⊢
    cases hstep : (run_round svc cases i st).2.2 with
    | some c =>
      rw [hstep] at h
      have hc : c = Cause.perfect := h
      subst hc
      exact ⟨(run_round svc cases i st).2.1, rfl,
        run_round_stop_perfect svc cases i st hstep⟩
    | none =>
      rw [hstep] at h
      have h' : (run_loop svc cases rest
          (run_round svc cases i st).1).2.2 = Cause.perfect := h
      obtain ⟨info, h1, h2⟩ := ih _ h'
      refine ⟨info, ?_, h2⟩
      show ((run_round svc cases i st).2.1 ::
        (run_loop svc cases rest (run_round svc cases i st).1).2.1).getLast? =
        some info
      rcases htr : (run_loop svc cases rest (run_round svc cases i st).1).2.1
        with _ | ⟨y, ys⟩
      · rw [htr] at h1
        simp at h1
      · rw [List.getLast?_cons_cons]
        rw [htr] at h1
        exact h1

theorem run_loop_cause_stag (svc : Services) (cases : List CaseData) :
    ∀ (rounds : List Nat) (st : LoopState),
      (run_loop svc cases rounds st).2.2 = .stagnation →
      5 ≤ (run_loop svc cases rounds st).1.stagnation_count := by
  intro rounds
  induction rounds with
  | nil => intro st h; simp [run_loop] at h
  | cons i rest ih =>
    intro st h
    simp only [run_loop] at h ⊢
    cases hstep : (run_round svc cases i st).2.2 with
    | some c =>
      rw [hstep] at h
      have hc : c = Cause.stagnation := h
      subst hc
      show 5 ≤ (run_round svc cases i st).1.stagnation_count
      exact run_round_stop_stag svc cases i st hstep
    | none =>
      rw [hstep] at h
      have h' : (run_loop svc cases rest
          (run_round svc cases i st).1).2.2 = Cause.stagnation := h
      show 5 ≤ (run_loop svc cases rest
        (run_round svc cases i st).1).1.stagnation_count
      exact ih _ h'

theorem run_loop_emptyPred (svc : Services) (cases : List CaseData)
    (hp : ∀ p d, predict_diseases svc p d = []) :
    ∀ (rounds : List Nat) (st : LoopState), st.best_avg_overlap = 0 →
      (run_loop svc cases rounds st).1.best_avg_overlap = 0 ∧
      (run_loop svc cases rounds st).1.best_prompt = st.best_prompt := by
  intro rounds
  induction rounds with
  | nil => intro st h0; exact ⟨h0, rfl⟩
  | cons i rest ih =>
    intro st h0
    obtain ⟨hb, hbp⟩ := run_round_emptyPred svc cases i st hp h0
    simp only [run_loop]
    cases hstep : (run_round svc cases i st).2.2 with
    | some c =>
      exact ⟨hb, hbp⟩
    | none =>
      obtain ⟨hb', hbp'⟩ := ih (run_round svc cases i st).1 hb
      exact ⟨hb', hbp'.trans hbp⟩

/-- The stub services predict nothing for any request. -/
theorem svcEmptyPred_predicts_empty (p : PyStr) (d : Json) :
    predict_diseases svcEmptyPred p d = [] := by
  have h1 : extract_diseases_from_response (qwen_predict svcEmptyPred p d)
      = [] := by
    have h0 : qwen_predict svcEmptyPred p d = qwenClean (pyTrim []) := rfl
    rw [h0]
    decide
  have hr : List.range 3 = [0, 1, 2] := by decide
  unfold predict_diseases
  rw [hr]
  simp [List.foldl, h1]

/-! ## Claim C2 -/

/-- Claim C2: the loop terminates exactly by one of the three exits — the
round budget (`maxRounds`, with exactly `max_iterations` executed rounds),
a perfect round (`perfect`, the breaking round's aggregate score equal to
`1`), or the stagnation cap (`stagnation`, the counter at `5` or more).
And whenever the predictor yields an empty list for every request, the run
ends with `best_score = 0` and the initial base template as best prompt. -/
theorem c2_termination (svc : Services) (all_cases : List CaseData) :
    ((run_optimization svc all_cases).cause = .maxRounds →
      (run_optimization svc all_cases).trace.length = max_iterations) ∧
    ((run_optimization svc all_cases).cause = .perfect →
      ∃ info, (run_optimization svc all_cases).trace.getLast? = some info ∧
        info.avg = 1) ∧
    ((run_optimization svc all_cases).cause = .stagnation →
      5 ≤ (run_optimization svc all_cases).final.stagnation_count) ∧
    ((∀ p d, predict_diseases svc p d = []) →
      (run_optimization svc all_cases).final.best_avg_overlap = 0 ∧
      (run_optimization svc all_cases).final.best_prompt =
        base_prompt_template) := by
  refine ⟨?_, ?_, ?_, ?_⟩
  · intro h
    have := run_loop_cause_max svc all_cases (List.range max_iterations)
      initLoopState h
    simpa using this
  · intro h
    exact run_loop_cause_perfect svc all_cases (List.range max_iterations)
      initLoopState h
  · intro h
    exact run_loop_cause_stag svc all_cases (List.range max_iterations)
      initLoopState h
  · intro hp
    exact run_loop_emptyPred svc all_cases hp (List.range max_iterations)
      initLoopState rfl

theorem c2_termination_witness :
    (run_optimization svcEmptyPred casesSeven).final.best_avg_overlap = 0 ∧
    (run_optimization svcEmptyPred casesSeven).final.best_prompt =
      base_prompt_template :=
  (c2_termination svcEmptyPred casesSeven).2.2.2 svcEmptyPred_predicts_empty

/-! ## Claim C1 -/

theorem run_round_info_shape (svc : Services) (cases : List CaseData)
    (i : Nat) (st : LoopState) :
    (run_round svc cases i st).2.1.genCases = min 3 cases.length ∧
    (run_round svc cases i st).2.1.evalAttempted = cases.length := by
  refine ⟨?_, rfl⟩
  show (cases.take 3).length = min 3 cases.length
  simp

/-- In every round of every run, the prompt-generation context carries the
fixed prefix of (at most) three cases and the evaluation loop iterates all
loaded cases — the sample size never adapts. -/
theorem run_loop_fixed_sampling (svc : Services) (cases : List CaseData) :
    ∀ (rounds : List Nat) (st : LoopState),
      ((run_loop svc cases rounds st).2.1.all
        (fun info => (info.genCases == min 3 cases.length) &&
          (info.evalAttempted == cases.length))) = true := by
  intro rounds
  induction rounds with
  | nil => intro st; rfl
  | cons i rest ih =>
    intro st
    simp only [run_loop]
    cases hstep : (run_round svc cases i st).2.2 with
    | some c =>
      simp [(run_round_info_shape svc cases i st).1,
        (run_round_info_shape svc cases i st).2]
    | none =>
      simp [(run_round_info_shape svc cases i st).1,
        (run_round_info_shape svc cases i st).2, ih]

/-- A zero-accuracy per-case analysis, as produced for stub case `n` when
the predictor returns nothing. -/
def caseAnalysisZero (n : Nat) : CaseAnalysis :=
  ⟨[Char.ofNat (48 + n)], [], [['x']], ⟨{['x']}, ∅, ∅, 0, 0⟩, ['x']⟩

/-- The iteration record produced by round `k` of the empty-predictor run
over the stub cases. -/
def recZero (k : Nat) : IterationRecord :=
  ⟨k, base_prompt_template, tinyPrompt,
   [caseAnalysisZero 1, caseAnalysisZero 2, caseAnalysisZero 3],
   ⟨3, {['x']}, ∅⟩⟩

/-- The loop state entering round 5 of the empty-predictor run: stagnation
counter 2, four all-zero iteration records in the history. -/
def stStag : LoopState :=
  ⟨base_prompt_template, 0, 2,
   ⟨4, [recZero 1, recZero 2, recZero 3, recZero 4]⟩⟩

set_option maxHeartbeats 16000000 in
/-- Claim C1 (code-bug evidence): adaptive sampling never takes effect.
First conjunct: in every round of every run, the generation context holds
the fixed prefix of `min(3, total)` cases and the evaluation loop iterates
all loaded cases.  The remaining conjuncts exhibit the failing run: with
seven stub cases and an empty-returning predictor, four rounds from the
initial state reach exactly `stStag` (stagnation counter 2, four all-zero
records); round 5 then classifies as stagnating with counter `k = 3`,
computes and stores the widened sample size `min(7, 3 + 3) = 6` into the
already-consumed context dict — yet that round still evaluates all `7`
cases and hands generation `3` cases, not `6`. -/
theorem c1_adaptive_sampling_dead :
    (∀ (svc : Services) (cases : List CaseData) (rounds : List Nat)
        (st : LoopState),
      ((run_loop svc cases rounds st).2.1.all
        (fun info => (info.genCases == min 3 cases.length) &&
          (info.evalAttempted == cases.length))) = true) ∧
    (run_loop svcEmptyPred casesSeven (List.range 4) initLoopState).1
      = stStag ∧
    (fun i => (i.stagAfter, i.deadSampleSize, i.genCases, i.evalAttempted))
      ((run_round svcEmptyPred casesSeven 4 stStag).2.1) =
      (3, some 6, 3, 7) ∧
    min casesSeven.length (3 + 3) = 6 ∧ (7 : Nat) ≠ 6 :=
  ⟨run_loop_fixed_sampling, by decide, by decide, by decide, by decide⟩
